import Mathlib

/-!
# Verification of the local multi-view reconstruction / texture-baking engine

Shallow embedding of `src/holo/packages/img2mesh3d/src/local_recon.py`
(class `LocalReconstructor`) together with the configuration model of
`src/holo/packages/img2mesh3d/src/config.py` (`PipelineConfig`).

Modelling conventions:
* Python floats are modelled as exact rationals (`ℚ`) wherever the code only
  performs field operations, floor/ceil and comparisons; the camera-pose
  construction, which genuinely needs `sqrt`, is modelled over `ℝ`.
* Stateful code (the `run` driver, texture accumulation buffers) is modelled
  by explicit state passing; fallible code returns `Except`.
* Calls into the external geometry libraries (open3d / trimesh / xatlas /
  the Blender subprocess) — declared out of scope by the specification — are
  modelled as oracle outcomes carried in an environment record, while the
  control flow around them is translated statement by statement.
-/

namespace LocalRecon

/-! ## Configuration (`config.py`, `PipelineConfig`) — the fields consumed by
`local_recon.py`.  `recon_view_indices : Option (List ℤ)` mirrors the
`Optional[List[int]]` field; the pydantic validator
`_validate_view_indices` is modelled by `PipelineConfig.validViewIndices`. -/

structure PipelineConfig where
  recon_method : String := "poisson"
  recon_fusion : String := "points"
  recon_voxel_size : ℚ := 6/1000
  recon_alpha : ℚ := 2/100
  recon_poisson_depth : ℕ := 8
  recon_target_tris : ℕ := 2000
  recon_images : Option ℕ := none
  recon_view_indices : Option (List ℤ) := none
  points_enabled : Bool := true
  points_voxel_size : ℚ := 0
  points_max_points : ℕ := 0
  texture_enabled : Bool := true
  texture_size : ℕ := 1024
  texture_backend : String := "auto"
  blender_path : Option String := none
  camera_fov_deg : ℚ := 35
  camera_radius : ℚ := 6/5
  views_elev_deg : ℚ := 10
  views_azimuths_deg : Option (List ℚ) := none
  views_elevations_deg : Option (List ℚ) := none
  depth_invert : Bool := true
  depth_near : ℚ := 1/5
  depth_far : ℚ := 2

/-- `PipelineConfig._validate_view_indices`: the configured index list is
either absent or a non-empty list of non-negative indices (pydantic raises
otherwise, so no other config value can reach `LocalReconstructor`). -/
def PipelineConfig.validViewIndices (c : PipelineConfig) : Prop :=
  match c.recon_view_indices with
  | none => True
  | some l => l ≠ [] ∧ ∀ i ∈ l, 0 ≤ i

/-! ## View selection (`LocalReconstructor._select_views`, lines 215-230) -/

/-- The `uniq` accumulation loop of `_select_views`: append each index that has
not been seen yet (`if idx not in uniq: uniq.append(idx)`). -/
def dedupKeepFirst (l : List ℤ) : List ℤ :=
  l.foldl (fun acc idx => if idx ∈ acc then acc else acc ++ [idx]) []

/-- The non-explicit part of `_select_views` (lines 222-230): all indices when
no cap applies, else evenly spaced sampling `min(total-1, int(i*step))` with
`step = total / max(1, recon_images)`, de-duplicated keeping first
occurrences.  Python's `int()` on a non-negative float is `⌊·⌋`. -/
def selectViewsSampled (config : PipelineConfig) (total : ℕ) : List ℤ :=
  match config.recon_images with
  | none => (List.range total).map (fun (n : ℕ) => (n : ℤ))
  | some cap =>
      if total ≤ cap then (List.range total).map (fun (n : ℕ) => (n : ℤ))
      else
        let step : ℚ := (total : ℚ) / (max 1 cap : ℕ)
        let indices := (List.range cap).map
          (fun (i : ℕ) => min ((total : ℤ) - 1) ⌊(i : ℚ) * step⌋)
        dedupKeepFirst indices

/-- `LocalReconstructor._select_views` (lines 215-230). -/
def selectViews (config : PipelineConfig) (total : ℕ) : List ℤ :=
  if total = 0 then []
  else
    match config.recon_view_indices with
    | some l =>
        let indices := l.filter (fun i => i < (total : ℤ))
        if indices ≠ [] then indices else selectViewsSampled config total
    | none => selectViewsSampled config total

/-! ## Camera angle assignment (`LocalReconstructor._default_angles`,
lines 309-323) -/

/-- Python truthiness of an `Optional[List[...]]` config field:
`None` and `[]` are falsy. -/
def truthyList {α : Type} : Option (List α) → Bool
  | some (_ :: _) => true
  | _ => false

/-- `LocalReconstructor._default_angles` (lines 309-323).
`np.linspace(0.0, 360.0, count, endpoint=False)` is `i * 360 / count`. -/
def defaultAngles (config : PipelineConfig) (count : ℕ) : List (ℚ × ℚ) :=
  let explicitBranch : Option (List (ℚ × ℚ)) :=
    if truthyList config.views_azimuths_deg ∧ truthyList config.views_elevations_deg then
      let pairs := List.zip (config.views_azimuths_deg.getD [])
        (config.views_elevations_deg.getD [])
      if count ≤ pairs.length then some (pairs.take count) else none
    else none
  match explicitBranch with
  | some pairs => pairs
  | none =>
      if count = 6 then
        [(30, 20), (90, 20), (150, 20), (210, -20), (270, -20), (330, -20)]
      else
        (List.range count).map
          (fun (i : ℕ) => ((i : ℚ) * 360 / count, config.views_elev_deg))

/-- The non-explicit branches of the reference angle assignment of the
specification: the fixed 6-view turntable table, else uniform spacing. -/
def defaultAnglesSpecFallback (config : PipelineConfig) (count : ℕ) : List (ℚ × ℚ) :=
  if count = 6 then
    [(30, 20), (90, 20), (150, 20), (210, -20), (270, -20), (330, -20)]
  else
    (List.range count).map
      (fun (i : ℕ) => ((i : ℚ) * 360 / count, config.views_elev_deg))

/-- Reference angle assignment, written from the specification's words: use
the explicit per-view azimuth/elevation arrays verbatim (first `count` pairs)
when both are configured with length at least `count`; otherwise the fixed
6-view turntable table; otherwise `count` uniformly spaced azimuths at the
single configured elevation. -/
def defaultAnglesSpec (config : PipelineConfig) (count : ℕ) : List (ℚ × ℚ) :=
  match config.views_azimuths_deg, config.views_elevations_deg with
  | some az, some el =>
      if count ≤ az.length ∧ count ≤ el.length then
        List.zip (az.take count) (el.take count)
      else defaultAnglesSpecFallback config count
  | _, _ => defaultAnglesSpecFallback config count

/-! ## Helper lemmas about `dedupKeepFirst` and sampled indices -/

lemma dedupKeepFirst_go_append (l : List ℤ) : ∀ (acc : List ℤ),
    (∀ x ∈ l, x ∉ acc) → l.Nodup →
    l.foldl (fun acc idx => if idx ∈ acc then acc else acc ++ [idx]) acc = acc ++ l := by
  induction l with
  | nil => intro acc _ _; simp
  | cons x xs ih =>
      intro acc hdisj hnd
      have hx : x ∉ acc := hdisj x (by simp)
      have hnd' := (List.nodup_cons.mp hnd)
      simp only [List.foldl_cons, if_neg hx]
      rw [ih (acc ++ [x]) ?_ hnd'.2]
      · simp
      · intro y hy
        simp only [List.mem_append, List.mem_singleton]
        rintro (h | rfl)
        · exact hdisj y (by simp [hy]) h
        · exact hnd'.1 hy

lemma dedupKeepFirst_of_nodup {l : List ℤ} (h : l.Nodup) : dedupKeepFirst l = l := by
  simpa using dedupKeepFirst_go_append l [] (by simp) h

lemma dedupKeepFirst_go_nodup (l : List ℤ) : ∀ (acc : List ℤ), acc.Nodup →
    (l.foldl (fun acc idx => if idx ∈ acc then acc else acc ++ [idx]) acc).Nodup := by
  induction l with
  | nil => intro acc h; simpa using h
  | cons x xs ih =>
      intro acc h
      simp only [List.foldl_cons]
      by_cases hx : x ∈ acc
      · rw [if_pos hx]; exact ih acc h
      · rw [if_neg hx]
        exact ih (acc ++ [x]) (by simp [List.nodup_append, h, hx])

lemma dedupKeepFirst_nodup (l : List ℤ) : (dedupKeepFirst l).Nodup :=
  dedupKeepFirst_go_nodup l [] (by simp)

lemma dedupKeepFirst_go_mem (l : List ℤ) : ∀ (acc : List ℤ) (y : ℤ),
    y ∈ l.foldl (fun acc idx => if idx ∈ acc then acc else acc ++ [idx]) acc →
    y ∈ acc ∨ y ∈ l := by
  induction l with
  | nil => intro acc y h; exact Or.inl (by simpa using h)
  | cons x xs ih =>
      intro acc y h
      simp only [List.foldl_cons] at h
      by_cases hx : x ∈ acc
      · rw [if_pos hx] at h
        rcases ih acc y h with h' | h' <;> simp [h']
      · rw [if_neg hx] at h
        rcases ih (acc ++ [x]) y h with h' | h'
        · rcases List.mem_append.mp h' with h'' | h''
          · exact Or.inl h''
          · simp at h''; simp [h'']
        · simp [h']

lemma dedupKeepFirst_mem {l : List ℤ} {y : ℤ} (h : y ∈ dedupKeepFirst l) : y ∈ l := by
  rcases dedupKeepFirst_go_mem l [] y h with h' | h'
  · simp at h'
  · exact h'

lemma floor_natCast_div (m k : ℕ) : ⌊(m : ℚ) / (k : ℚ)⌋ = ((m / k : ℕ) : ℤ) := by
  rw [show ((m : ℚ)) = (((m : ℕ) : ℤ) : ℚ) by push_cast; ring]
  rw [Rat.floor_intCast_div_natCast]
  exact_mod_cast rfl

/-- The sampled index at slot `i`, as the code computes it, equals the
claim's reference `⌊i·total/k⌋` and both equal the natural division. -/
lemma sampled_index_eq (i total k : ℕ) :
    ⌊(i : ℚ) * ((total : ℚ) / (k : ℚ))⌋ = ((i * total / k : ℕ) : ℤ) ∧
    ⌊((i : ℚ) * (total : ℚ)) / (k : ℚ)⌋ = ((i * total / k : ℕ) : ℤ) := by
  constructor
  · rw [show (i : ℚ) * ((total : ℚ) / (k : ℚ)) = ((i * total : ℕ) : ℚ) / (k : ℚ) by
      push_cast; ring]
    exact floor_natCast_div _ _
  · rw [show ((i : ℚ) * (total : ℚ)) / (k : ℚ) = ((i * total : ℕ) : ℚ) / (k : ℚ) by
      push_cast; ring]
    exact floor_natCast_div _ _

lemma sampled_div_lt (i total k : ℕ) (hk : 0 < k) (hi : i < k) (ht : 0 < total) :
    i * total / k < total := by
  refine (Nat.div_lt_iff_lt_mul hk).mpr ?_
  have h : i * total < k * total := Nat.mul_lt_mul_of_lt_of_le hi (Nat.le_refl _) ht
  rwa [Nat.mul_comm k total] at h

lemma sampled_div_strict_mono {i j total k : ℕ} (hk : 0 < k) (hij : i < j)
    (hkt : k < total) : i * total / k < j * total / k := by
  have h1 : i * total + k < (i + 1) * total := by
    have : i * total + k < i * total + total := by omega
    calc i * total + k < i * total + total := this
      _ = (i + 1) * total := by ring
  have h2 : i * total / k + 1 ≤ (i + 1) * total / k := by
    have := Nat.div_le_div_right (c := k) (Nat.le_of_lt h1)
    rwa [Nat.add_div_right _ hk] at this
  have h3 : (i + 1) * total / k ≤ j * total / k :=
    Nat.div_le_div_right (Nat.mul_le_mul_right _ hij)
  omega

lemma zip_take {α β : Type} :
    ∀ (l₁ : List α) (l₂ : List β) (n : ℕ),
      (List.zip l₁ l₂).take n = List.zip (l₁.take n) (l₂.take n)
  | [], _, _ => by simp
  | _ :: _, [], _ => by simp
  | _ :: _, _ :: _, 0 => rfl
  | a :: as, b :: bs, n + 1 => by
      simp [List.zip_cons_cons, zip_take as bs n]

/-- The evenly-spaced sampling list, rewritten three ways: as the code
computes it, as the claim's reference formula writes it, and with the clamp
and floor collapsed to natural division. -/
lemma sampled_list_eq (total k : ℕ) (h1 : 1 ≤ k) (hlt : k < total) :
    ((List.range k).map (fun (i : ℕ) => min ((total : ℤ) - 1)
        ⌊(i : ℚ) * ((total : ℚ) / (max 1 k : ℕ) )⌋)
      = (List.range k).map (fun i => ((i * total / k : ℕ) : ℤ))) ∧
    ((List.range k).map (fun (i : ℕ) => min ((total : ℤ) - 1)
        ⌊((i : ℚ) * (total : ℚ)) / (k : ℚ)⌋)
      = (List.range k).map (fun i => ((i * total / k : ℕ) : ℤ))) := by
  have hmax : (max 1 k : ℕ) = k := by omega
  have hk : 0 < k := h1
  have ht : 0 < total := lt_trans hk hlt
  have hmin : ∀ i, i < k →
      min ((total : ℤ) - 1) (((i * total / k : ℕ) : ℤ)) = ((i * total / k : ℕ) : ℤ) := by
    intro i hi
    have hd : i * total / k < total := sampled_div_lt i total k hk hi ht
    have hcast : ((i * total / k : ℕ) : ℤ) < (total : ℤ) := by exact_mod_cast hd
    have : ((i * total / k : ℕ) : ℤ) ≤ (total : ℤ) - 1 := by omega
    exact min_eq_right this
  constructor
  · refine List.map_congr_left ?_
    intro i hi
    rw [hmax, (sampled_index_eq i total k).1, hmin i (List.mem_range.mp hi)]
  · refine List.map_congr_left ?_
    intro i hi
    rw [(sampled_index_eq i total k).2, hmin i (List.mem_range.mp hi)]

/-- The collapsed sampling list is strictly increasing. -/
lemma sampled_list_pairwise (total k : ℕ) (h1 : 1 ≤ k) (hlt : k < total) :
    ((List.range k).map (fun i => ((i * total / k : ℕ) : ℤ))).Pairwise (· < ·) := by
  rw [List.pairwise_map]
  refine (List.pairwise_lt_range k).imp ?_
  intro a b hab
  exact_mod_cast sampled_div_strict_mono h1 hab hlt

/-- C6: for every view count `count ≥ 1` the camera model's angle assignment
equals the reference definition built from the specification's words:
explicit arrays of length ≥ `count` are used verbatim (first `count` pairs),
else the fixed 6-view turntable table, else uniform azimuth spacing at the
configured elevation. -/
theorem C6_default_angles_eq_spec (config : PipelineConfig) (count : ℕ) (hc : 1 ≤ count) :
    defaultAngles config count = defaultAnglesSpec config count := by
  have hc0 : count ≠ 0 := by omega
  cases haz : config.views_azimuths_deg with
  | none =>
      simp [defaultAngles, defaultAnglesSpec, defaultAnglesSpecFallback, haz, truthyList]
  | some az =>
      cases hel : config.views_elevations_deg with
      | none =>
          cases az <;>
            simp [defaultAngles, defaultAnglesSpec, defaultAnglesSpecFallback, haz, hel,
              truthyList]
      | some el =>
          cases az with
          | nil =>
              simp [defaultAngles, defaultAnglesSpec, defaultAnglesSpecFallback, haz, hel,
                truthyList, hc0]
          | cons a as =>
              cases el with
              | nil =>
                  simp [defaultAngles, defaultAnglesSpec, defaultAnglesSpecFallback, haz, hel,
                    truthyList, hc0]
              | cons e es =>
                  have htr : truthyList (some (a :: as)) = true ∧
                      truthyList (some (e :: es)) = true := ⟨rfl, rfl⟩
                  by_cases hz : count ≤ ((a :: as).zip (e :: es)).length
                  · have hcond : count ≤ (a :: as).length ∧ count ≤ (e :: es).length := by
                      rw [List.length_zip] at hz
                      exact ⟨le_trans hz (min_le_left _ _), le_trans hz (min_le_right _ _)⟩
                    simp only [defaultAngles, defaultAnglesSpec, Option.getD_some, haz, hel]
                    rw [if_pos htr, if_pos hz, if_pos hcond]
                    exact zip_take _ _ _
                  · have hcond : ¬ (count ≤ (a :: as).length ∧ count ≤ (e :: es).length) := by
                      rw [List.length_zip] at hz
                      intro h
                      exact hz (le_min h.1 h.2)
                    simp only [defaultAngles, defaultAnglesSpec, defaultAnglesSpecFallback,
                      Option.getD_some, haz, hel]
                    rw [if_pos htr, if_neg hz, if_neg hcond]

/-- Witness for C6 at a concrete input: the default config with 6 views
reproduces the turntable table. -/
theorem C6_witness :
    1 ≤ 6 ∧ defaultAngles {} 6 = defaultAnglesSpec {} 6 :=
  ⟨by norm_num, C6_default_angles_eq_spec {} 6 (by norm_num)⟩

lemma selectViewsSampled_eq_none (config : PipelineConfig) (total : ℕ)
    (h : config.recon_images = none) :
    selectViewsSampled config total = (List.range total).map (fun (n : ℕ) => (n : ℤ)) := by
  unfold selectViewsSampled
  rw [h]

lemma selectViewsSampled_eq_some (config : PipelineConfig) (total cap : ℕ)
    (h : config.recon_images = some cap) :
    selectViewsSampled config total =
      if total ≤ cap then (List.range total).map (fun (n : ℕ) => (n : ℤ))
      else dedupKeepFirst ((List.range cap).map
        (fun (i : ℕ) => min ((total : ℤ) - 1)
          ⌊(i : ℚ) * ((total : ℚ) / ((max 1 cap : ℕ) : ℚ))⌋)) := by
  unfold selectViewsSampled
  rw [h]

lemma selectViews_eq_none (config : PipelineConfig) (total : ℕ) (ht : ¬ total = 0)
    (h : config.recon_view_indices = none) :
    selectViews config total = selectViewsSampled config total := by
  unfold selectViews
  rw [if_neg ht, h]

lemma selectViews_eq_explicit (config : PipelineConfig) (total : ℕ) (l : List ℤ)
    (ht : ¬ total = 0) (h : config.recon_view_indices = some l) :
    selectViews config total =
      if l.filter (fun i => i < (total : ℤ)) ≠ [] then l.filter (fun i => i < (total : ℤ))
      else selectViewsSampled config total := by
  unfold selectViews
  rw [if_neg ht, h]

lemma rangeCast_bounds {total : ℕ} {j : ℤ}
    (hj : j ∈ (List.range total).map (fun (n : ℕ) => (n : ℤ))) :
    0 ≤ j ∧ j < (total : ℤ) := by
  rcases List.mem_map.mp hj with ⟨m, hm, rfl⟩
  have := List.mem_range.mp hm
  exact ⟨Int.natCast_nonneg m, by exact_mod_cast this⟩

lemma selectViewsSampled_bounds (config : PipelineConfig) (total : ℕ) (h1 : total ≠ 0) :
    ∀ i ∈ selectViewsSampled config total, 0 ≤ i ∧ i < (total : ℤ) := by
  intro i hi
  cases hri : config.recon_images with
  | none =>
      rw [selectViewsSampled_eq_none config total hri] at hi
      exact rangeCast_bounds hi
  | some cap =>
      rw [selectViewsSampled_eq_some config total cap hri] at hi
      by_cases hcap : total ≤ cap
      · rw [if_pos hcap] at hi; exact rangeCast_bounds hi
      · rw [if_neg hcap] at hi
        have hi' := dedupKeepFirst_mem hi
        rcases List.mem_map.mp hi' with ⟨m, _hm, rfl⟩
        have hstep : (0 : ℚ) ≤ (m : ℚ) * ((total : ℚ) / ((max 1 cap : ℕ) : ℚ)) := by positivity
        have hfl : (0 : ℤ) ≤ ⌊(m : ℚ) * ((total : ℚ) / ((max 1 cap : ℕ) : ℚ))⌋ :=
          Int.le_floor.mpr (by exact_mod_cast hstep)
        have htot : (1 : ℤ) ≤ (total : ℤ) := by exact_mod_cast Nat.one_le_iff_ne_zero.mpr h1
        constructor
        · exact le_min (by omega) hfl
        · have : min ((total : ℤ) - 1)
              ⌊(m : ℚ) * ((total : ℚ) / ((max 1 cap : ℕ) : ℚ))⌋ ≤ (total : ℤ) - 1 :=
            min_le_left _ _
          omega

lemma selectViewsSampled_nodup (config : PipelineConfig) (total : ℕ) :
    (selectViewsSampled config total).Nodup := by
  have hrange : ((List.range total).map (fun (n : ℕ) => (n : ℤ))).Nodup :=
    (List.nodup_range total).map Nat.cast_injective
  cases hri : config.recon_images with
  | none => rw [selectViewsSampled_eq_none config total hri]; exact hrange
  | some cap =>
      rw [selectViewsSampled_eq_some config total cap hri]
      by_cases hcap : total ≤ cap
      · rw [if_pos hcap]; exact hrange
      · rw [if_neg hcap]; exact dedupKeepFirst_nodup _

lemma selectViews_bounds_valid (config : PipelineConfig) (total : ℕ)
    (hvalid : config.validViewIndices) :
    ∀ i ∈ selectViews config total, 0 ≤ i ∧ i < (total : ℤ) := by
  intro i hi
  by_cases ht : total = 0
  · unfold selectViews at hi
    rw [if_pos ht] at hi
    simp at hi
  · cases hrvi : config.recon_view_indices with
    | none =>
        rw [selectViews_eq_none config total ht hrvi] at hi
        exact selectViewsSampled_bounds config total ht i hi
    | some l =>
        rw [selectViews_eq_explicit config total l ht hrvi] at hi
        by_cases hne : l.filter (fun i => i < (total : ℤ)) ≠ []
        · rw [if_pos hne] at hi
          have hmem := List.mem_filter.mp hi
          have h0 : 0 ≤ i := by
            unfold PipelineConfig.validViewIndices at hvalid
            rw [hrvi] at hvalid
            exact hvalid.2 i hmem.1
          exact ⟨h0, by simpa using hmem.2⟩
        · rw [if_neg hne] at hi
          exact selectViewsSampled_bounds config total ht i hi

/-- C7: with no explicit view-index list configured, the view selector
returns all indices `0..num_available-1` (in order) when the configured cap
is absent or at least `num_available`; and when the cap is `k` with
`1 ≤ k < num_available` it returns the claim's reference list —
`⌊i·num_available/k⌋` for `i ∈ [0,k)`, clamped to `num_available-1`,
de-duplicated in order — which consists of exactly `k` strictly increasing
indices. -/
theorem C7_select_views_sampling (config : PipelineConfig) (total : ℕ)
    (h1 : 1 ≤ total) (hnone : config.recon_view_indices = none) :
    ((config.recon_images = none ∨ (∃ k, config.recon_images = some k ∧ total ≤ k)) →
      selectViews config total = (List.range total).map (fun (n : ℕ) => (n : ℤ))) ∧
    (∀ k, config.recon_images = some k → 1 ≤ k → k < total →
      selectViews config total
        = dedupKeepFirst ((List.range k).map
            (fun (i : ℕ) => min ((total : ℤ) - 1) ⌊((i : ℚ) * (total : ℚ)) / (k : ℚ)⌋)) ∧
      (selectViews config total).Pairwise (· < ·) ∧
      (selectViews config total).length = k) := by
  have ht0 : ¬ total = 0 := by omega
  have hsel := selectViews_eq_none config total ht0 hnone
  constructor
  · rintro (hri | ⟨k, hri, hk⟩)
    · rw [hsel, selectViewsSampled_eq_none config total hri]
    · rw [hsel, selectViewsSampled_eq_some config total k hri, if_pos hk]
  · intro k hri hk1 hklt
    have hcap : ¬ total ≤ k := by omega
    have hcode : selectViews config total
        = dedupKeepFirst ((List.range k).map
            (fun (i : ℕ) => min ((total : ℤ) - 1)
              ⌊(i : ℚ) * ((total : ℚ) / ((max 1 k : ℕ) : ℚ))⌋)) := by
      rw [hsel, selectViewsSampled_eq_some config total k hri, if_neg hcap]
    have heq := sampled_list_eq total k hk1 hklt
    have hcollapsed : selectViews config total
        = (List.range k).map (fun i => ((i * total / k : ℕ) : ℤ)) := by
      rw [hcode, heq.1]
      exact dedupKeepFirst_of_nodup
        ((sampled_list_pairwise total k hk1 hklt).imp (fun hab => ne_of_lt hab))
    refine ⟨?_, ?_, ?_⟩
    · rw [hcode, heq.1, heq.2]
    · rw [hcollapsed]; exact sampled_list_pairwise total k hk1 hklt
    · rw [hcollapsed]; simp

/-- Witness for C7: 5 available views capped at 2 select two indices. -/
theorem C7_witness :
    (1 ≤ 5 ∧ ({ recon_images := some 2 } : PipelineConfig).recon_view_indices = none) ∧
    (selectViews { recon_images := some 2 } 5
        = dedupKeepFirst ((List.range 2).map
            (fun (i : ℕ) => min ((5 : ℤ) - 1) ⌊((i : ℚ) * (5 : ℚ)) / (2 : ℚ)⌋)) ∧
      (selectViews { recon_images := some 2 } 5).Pairwise (· < ·) ∧
      (selectViews { recon_images := some 2 } 5).length = 2) :=
  ⟨⟨by norm_num, rfl⟩,
    (C7_select_views_sampling { recon_images := some 2 } 5 (by norm_num) rfl).2
      2 rfl (by norm_num) (by norm_num)⟩

/-- C8 counterexample: the pydantic-valid configuration
`recon_view_indices = [2, 2]` makes the selector return `[2, 2]` for 3
available views: the result contains a duplicate, so the claimed
no-duplicates invariant fails. -/
theorem C8_counterexample :
    PipelineConfig.validViewIndices { recon_view_indices := some [2, 2] } ∧
    selectViews { recon_view_indices := some [2, 2] } 3 = [2, 2] ∧
    ¬ (selectViews { recon_view_indices := some [2, 2] } 3).Nodup := by
  refine ⟨⟨by simp, by decide⟩, by decide, by decide⟩

/-- C8 (amended): for every pydantic-valid configuration every selected
index lies in `[0, num_available)`; the no-duplicates guarantee holds
whenever no explicit index list is configured, but a configured explicit
list is only filtered to `< num_available` and passed through as-is, so its
duplicates survive. -/
theorem C8_select_views_bounds_amended (config : PipelineConfig) (total : ℕ)
    (hvalid : config.validViewIndices) :
    (∀ i ∈ selectViews config total, 0 ≤ i ∧ i < (total : ℤ)) ∧
    (config.recon_view_indices = none → (selectViews config total).Nodup) ∧
    (∀ l, config.recon_view_indices = some l →
      l.filter (fun i => i < (total : ℤ)) ≠ [] → total ≠ 0 →
      selectViews config total = l.filter (fun i => i < (total : ℤ))) := by
  refine ⟨selectViews_bounds_valid config total hvalid, ?_, ?_⟩
  · intro hnone
    by_cases ht : total = 0
    · unfold selectViews
      rw [if_pos ht]
      exact List.nodup_nil
    · rw [selectViews_eq_none config total ht hnone]
      exact selectViewsSampled_nodup config total
  · intro l hl hne ht
    rw [selectViews_eq_explicit config total l ht hl, if_pos hne]

/-- Witness for C8 (amended) at the default configuration with 4 views. -/
theorem C8_amended_witness :
    PipelineConfig.validViewIndices ({} : PipelineConfig) ∧
    ((∀ i ∈ selectViews {} 4, 0 ≤ i ∧ i < (4 : ℤ)) ∧
      (({} : PipelineConfig).recon_view_indices = none → (selectViews {} 4).Nodup) ∧
      (∀ l, ({} : PipelineConfig).recon_view_indices = some l →
        l.filter (fun i => i < (4 : ℤ)) ≠ [] → 4 ≠ 0 →
        selectViews {} 4 = l.filter (fun i => i < (4 : ℤ)))) :=
  ⟨trivial, C8_select_views_bounds_amended {} 4 trivial⟩

/-! ## Texture baking (`LocalReconstructor._bake_texture`,
`_select_view_for_face`, `_rasterize_face`, `_sample_view_color`,
lines 636-750).  Pixel data and camera parameters are rationals; the two
`np.linalg.norm` calls of `_select_view_for_face` are the only square roots
in this code and are modelled over `ℝ`. -/

structure Vec3Q where
  x : ℚ
  y : ℚ
  z : ℚ

structure Vec2Q where
  u : ℚ
  v : ℚ

def v3add (a b : Vec3Q) : Vec3Q := ⟨a.x + b.x, a.y + b.y, a.z + b.z⟩

def v3sub (a b : Vec3Q) : Vec3Q := ⟨a.x - b.x, a.y - b.y, a.z - b.z⟩

def v3smul (c : ℚ) (a : Vec3Q) : Vec3Q := ⟨c * a.x, c * a.y, c * a.z⟩

def v3cross (a b : Vec3Q) : Vec3Q :=
  ⟨a.y * b.z - a.z * b.y, a.z * b.x - a.x * b.z, a.x * b.y - a.y * b.x⟩

/-- RGB triple with rational components (accumulation space). -/
def rgbAdd (a b : ℚ × ℚ × ℚ) : ℚ × ℚ × ℚ := (a.1 + b.1, a.2.1 + b.2.1, a.2.2 + b.2.2)

def rgbSmul (c : ℚ) (a : ℚ × ℚ × ℚ) : ℚ × ℚ × ℚ := (c * a.1, c * a.2.1, c * a.2.2)

def rgbCast (p : ℕ × ℕ × ℕ) : ℚ × ℚ × ℚ := ((p.1 : ℚ), (p.2.1 : ℚ), (p.2.2 : ℚ))

/-- A 4×4 matrix of rationals (`world_to_cam` as stored in the view cache). -/
structure Mat4Q where
  m00 : ℚ := 0
  m01 : ℚ := 0
  m02 : ℚ := 0
  m03 : ℚ := 0
  m10 : ℚ := 0
  m11 : ℚ := 0
  m12 : ℚ := 0
  m13 : ℚ := 0
  m20 : ℚ := 0
  m21 : ℚ := 0
  m22 : ℚ := 0
  m23 : ℚ := 0
  m30 : ℚ := 0
  m31 : ℚ := 0
  m32 : ℚ := 0
  m33 : ℚ := 1

/-- One entry of the `view_cache` list built at the top of `_bake_texture`
(image pixels with their shape, `world_to_cam`, intrinsics, eye). -/
structure BakeView where
  image : ℕ → ℕ → ℕ × ℕ × ℕ
  img_h : ℕ
  img_w : ℕ
  world_to_cam : Mat4Q
  fx : ℚ
  fy : ℚ
  cx : ℚ
  cy : ℚ
  eye : Vec3Q

/-- Texture accumulator buffer (`tex`), indexed `[row][column]`. -/
def TexBuf : Type := ℕ → ℕ → ℚ × ℚ × ℚ

/-- Weight buffer (`weights`). -/
def WBuf : Type := ℕ → ℕ → ℚ

/-- Point update of a buffer (`buf[r, c] = v`). -/
def updBuf {α : Type} (buf : ℕ → ℕ → α) (r c : ℕ) (v : α) : ℕ → ℕ → α :=
  fun r' c' => if r' = r ∧ c' = c then v else buf r' c'

/-- `LocalReconstructor._sample_view_color` (lines 730-750): project a world
point through `world_to_cam`, reject non-positive depth or out-of-bounds
pixels, else bilinearly sample the view image. -/
def sampleViewColor (point : Vec3Q) (view : BakeView) (width height : ℕ) :
    Option (ℚ × ℚ × ℚ) :=
  let M := view.world_to_cam
  let p0 := M.m00 * point.x + M.m01 * point.y + M.m02 * point.z + M.m03
  let p1 := M.m10 * point.x + M.m11 * point.y + M.m12 * point.z + M.m13
  let z := M.m20 * point.x + M.m21 * point.y + M.m22 * point.z + M.m23
  if z ≤ 1 / 1000000 then none
  else
    let u := view.fx * p0 / z + view.cx
    let v := view.fy * p1 / z + view.cy
    if u < 0 ∨ v < 0 ∨ (width : ℚ) - 1 ≤ u ∨ (height : ℚ) - 1 ≤ v then none
    else
      let x0 := ⌊u⌋.toNat
      let y0 := ⌊v⌋.toNat
      let dx := u - (x0 : ℚ)
      let dy := v - (y0 : ℚ)
      let c00 := rgbCast (view.image y0 x0)
      let c10 := rgbCast (view.image y0 (x0 + 1))
      let c01 := rgbCast (view.image (y0 + 1) x0)
      let c11 := rgbCast (view.image (y0 + 1) (x0 + 1))
      let c0 := rgbAdd (rgbSmul (1 - dx) c00) (rgbSmul dx c10)
      let c1 := rgbAdd (rgbSmul (1 - dx) c01) (rgbSmul dx c11)
      some (rgbAdd (rgbSmul (1 - dy) c0) (rgbSmul dy c1))

/-- Pixel coordinates of one UV vertex in texture space
(`u·(W-1)`, `(1-v)·(H-1)` — V flipped to the image row-down convention). -/
def uvPx (p : Vec2Q) (texW texH : ℕ) : ℚ × ℚ :=
  (p.u * ((texW : ℚ) - 1), (1 - p.v) * ((texH : ℚ) - 1))

def min3 (a b c : ℚ) : ℚ := min a (min b c)

def max3 (a b c : ℚ) : ℚ := max a (max b c)

/-- The clamped integer texel bounding box `(min_u, max_u, min_v, max_v)`
computed at the top of `_rasterize_face` (lines 700-705). -/
def rasterBounds (uv : Vec2Q × Vec2Q × Vec2Q) (texW texH : ℕ) : ℤ × ℤ × ℤ × ℤ :=
  let a := uvPx uv.1 texW texH
  let b := uvPx uv.2.1 texW texH
  let c := uvPx uv.2.2 texW texH
  (max ⌊min3 a.1 b.1 c.1⌋ 0, min ⌈max3 a.1 b.1 c.1⌉ ((texW : ℤ) - 1),
   max ⌊min3 a.2 b.2 c.2⌋ 0, min ⌈max3 a.2 b.2 c.2⌉ ((texH : ℤ) - 1))

/-- The UV edge vector `v0 = b - a` of `_rasterize_face` (line 710). -/
def rasterV0 (uv : Vec2Q × Vec2Q × Vec2Q) (texW texH : ℕ) : ℚ × ℚ :=
  ((uvPx uv.2.1 texW texH).1 - (uvPx uv.1 texW texH).1,
   (uvPx uv.2.1 texW texH).2 - (uvPx uv.1 texW texH).2)

/-- The UV edge vector `v1 = c - a` of `_rasterize_face` (line 711). -/
def rasterV1 (uv : Vec2Q × Vec2Q × Vec2Q) (texW texH : ℕ) : ℚ × ℚ :=
  ((uvPx uv.2.2 texW texH).1 - (uvPx uv.1 texW texH).1,
   (uvPx uv.2.2 texW texH).2 - (uvPx uv.1 texW texH).2)

/-- The UV edge-vector determinant `v0[0]*v1[1] - v1[0]*v0[1]` of
`_rasterize_face` (line 712). -/
def rasterDenom (uv : Vec2Q × Vec2Q × Vec2Q) (texW texH : ℕ) : ℚ :=
  (rasterV0 uv texW texH).1 * (rasterV1 uv texW texH).2 -
    (rasterV1 uv texW texH).1 * (rasterV0 uv texW texH).2

/-- Python `range(lo, hi + 1)` over integers. -/
def intRangeIncl (lo hi : ℤ) : List ℤ :=
  (List.range (hi + 1 - lo).toNat).map (fun (t : ℕ) => lo + (t : ℤ))

/-- The interpolated world-space position of texel `(x, y)` in the loop body
of `_rasterize_face` (`tri[0]*w + tri[1]*u + tri[2]*v`, line 723), together
with the barycentric coordinates.  `a` is the pixel position of the first UV
vertex, `v0`/`v1` the UV edge vectors and `denom` their determinant. -/
def rasterBary (a v0 v1 : ℚ × ℚ) (denom : ℚ) (y x : ℤ) : ℚ × ℚ × ℚ :=
  let v2 := ((x : ℚ) - a.1, (y : ℚ) - a.2)
  let u := (v2.1 * v1.2 - v1.1 * v2.2) / denom
  let v := (v0.1 * v2.2 - v2.1 * v0.2) / denom
  (u, v, 1 - u - v)

def rasterPoint (tri : Vec3Q × Vec3Q × Vec3Q) (a v0 v1 : ℚ × ℚ) (denom : ℚ)
    (y x : ℤ) : Vec3Q :=
  let u := (rasterBary a v0 v1 denom y x).1
  let v := (rasterBary a v0 v1 denom y x).2.1
  let w := (rasterBary a v0 v1 denom y x).2.2
  v3add (v3add (v3smul w tri.1) (v3smul u tri.2.1)) (v3smul v tri.2.2)

/-- The loop body of `_rasterize_face` (lines 717-728) for one texel. -/
def rasterStep (tri : Vec3Q × Vec3Q × Vec3Q) (view : BakeView)
    (a v0 v1 : ℚ × ℚ) (denom : ℚ) (bufs : TexBuf × WBuf) (y x : ℤ) :
    TexBuf × WBuf :=
  if (rasterBary a v0 v1 denom y x).1 < 0 ∨ (rasterBary a v0 v1 denom y x).2.1 < 0 ∨
      (rasterBary a v0 v1 denom y x).2.2 < 0 then bufs
  else
    match sampleViewColor (rasterPoint tri a v0 v1 denom y x) view
      view.img_w view.img_h with
    | none => bufs
    | some color =>
        (updBuf bufs.1 y.toNat x.toNat (rgbAdd (bufs.1 y.toNat x.toNat) color),
         updBuf bufs.2 y.toNat x.toNat (bufs.2 y.toNat x.toNat + 1))

/-- `LocalReconstructor._rasterize_face` (lines 692-728): early-out on a
degenerate bounding box or near-zero UV determinant, else scan the bounding
box, accept texels with all-non-negative barycentric coordinates, sample the
assigned view and accumulate into the texture and weight buffers. -/
def rasterizeFace (tri : Vec3Q × Vec3Q × Vec3Q) (uv : Vec2Q × Vec2Q × Vec2Q)
    (view : BakeView) (texW texH : ℕ) (tex : TexBuf) (weights : WBuf) :
    TexBuf × WBuf :=
  let bounds := rasterBounds uv texW texH
  let min_u := bounds.1
  let max_u := bounds.2.1
  let min_v := bounds.2.2.1
  let max_v := bounds.2.2.2
  if min_u ≥ max_u ∨ min_v ≥ max_v then (tex, weights)
  else
    let a := uvPx uv.1 texW texH
    let v0 := rasterV0 uv texW texH
    let v1 := rasterV1 uv texW texH
    let denom := rasterDenom uv texW texH
    if |denom| < 1 / 100000000 then (tex, weights)
    else
      (intRangeIncl min_v max_v).foldl (fun bufs (y : ℤ) =>
        (intRangeIncl min_u max_u).foldl
          (fun bufs (x : ℤ) => rasterStep tri view a v0 v1 denom bufs y x)
          bufs)
        (tex, weights)

/-- Real euclidean norm of a rational 3-vector (`np.linalg.norm`). -/
noncomputable def rnorm3 (v : Vec3Q) : ℝ :=
  Real.sqrt (((v.x * v.x + v.y * v.y + v.z * v.z : ℚ) : ℝ))

open Classical in
/-- `LocalReconstructor._select_view_for_face` (lines 673-690): skip faces
with a near-degenerate normal, else score every view by the absolute cosine
between the face normal and the centre-to-eye direction and keep the view
with the strictly largest score (first seen wins ties). -/
noncomputable def selectViewForFace (tri : Vec3Q × Vec3Q × Vec3Q)
    (views : List BakeView) : Option BakeView :=
  let normal := v3cross (v3sub tri.2.1 tri.1) (v3sub tri.2.2 tri.1)
  let norm := rnorm3 normal
  if norm < (1 / 100000000 : ℝ) then none
  else
    let center := v3smul (1 / 3) (v3add (v3add tri.1 tri.2.1) tri.2.2)
    (views.foldl (fun (acc : Option BakeView × ℝ) (view : BakeView) =>
      let d := v3sub view.eye center
      let dn := rnorm3 d + (1 / 100000000 : ℝ)
      let score := |((normal.x : ℝ) / norm) * ((d.x : ℝ) / dn) +
        ((normal.y : ℝ) / norm) * ((d.y : ℝ) / dn) +
        ((normal.z : ℝ) / norm) * ((d.z : ℝ) / dn)|
      if acc.2 < score then (some view, score) else acc) (none, 0)).1

/-- The accumulation loop of `_bake_texture` (lines 644-666): zero-initialise
the texture and weight buffers, then for every face gather its vertex
positions and UVs, pick the most front-facing view and rasterize. -/
noncomputable def bakeAccum (vertices : List Vec3Q) (faces : List (ℕ × ℕ × ℕ))
    (uvs : List Vec2Q) (frames : List BakeView) (texture_size : ℕ) :
    TexBuf × WBuf :=
  faces.foldl (fun bufs face =>
    let tri := (vertices.getD face.1 ⟨0, 0, 0⟩, vertices.getD face.2.1 ⟨0, 0, 0⟩,
      vertices.getD face.2.2 ⟨0, 0, 0⟩)
    let uv := (uvs.getD face.1 ⟨0, 0⟩, uvs.getD face.2.1 ⟨0, 0⟩,
      uvs.getD face.2.2 ⟨0, 0⟩)
    match selectViewForFace tri frames with
    | none => bufs
    | some view => rasterizeFace tri uv view texture_size texture_size bufs.1 bufs.2)
    (fun _ _ => (0, 0, 0), fun _ _ => 0)

/-- `np.clip(·, 0, 255).astype(np.uint8)` for one channel: clip, then
truncate toward zero (equal to the floor on the clipped non-negative range). -/
def toUint8 (q : ℚ) : ℕ := (⌊max 0 (min q 255)⌋).toNat

/-- The normalisation tail of `_bake_texture` (lines 668-671): divide each
texel with positive weight by its weight, then clip to `uint8` RGB. -/
def finalizeTexture (tex : TexBuf) (weights : WBuf) : ℕ → ℕ → ℕ × ℕ × ℕ :=
  fun y x =>
    let w := weights y x
    let c := if 0 < w then rgbSmul (1 / w) (tex y x) else tex y x
    (toUint8 c.1, toUint8 c.2.1, toUint8 c.2.2)

/-- `LocalReconstructor._bake_texture` (lines 636-671), as the final RGB
image, one `uint8` triple per texel. -/
noncomputable def bakeTexture (vertices : List Vec3Q) (faces : List (ℕ × ℕ × ℕ))
    (uvs : List Vec2Q) (frames : List BakeView) (texture_size : ℕ) :
    ℕ → ℕ → ℕ × ℕ × ℕ :=
  let bufs := bakeAccum vertices faces uvs frames texture_size
  finalizeTexture bufs.1 bufs.2

lemma finalizeTexture_zero (y x : ℕ) :
    finalizeTexture (fun _ _ => (0, 0, 0)) (fun _ _ => 0) y x = (0, 0, 0) := by
  simp [finalizeTexture, toUint8]

lemma rasterizeFace_skip (tri : Vec3Q × Vec3Q × Vec3Q) (uv : Vec2Q × Vec2Q × Vec2Q)
    (view : BakeView) (texW texH : ℕ)
    (h : (rasterBounds uv texW texH).1 ≥ (rasterBounds uv texW texH).2.1 ∨
      (rasterBounds uv texW texH).2.2.1 ≥ (rasterBounds uv texW texH).2.2.2 ∨
      |rasterDenom uv texW texH| < 1 / 100000000) :
    ∀ (tex : TexBuf) (weights : WBuf),
      rasterizeFace tri uv view texW texH tex weights = (tex, weights) := by
  intro tex weights
  unfold rasterizeFace
  rcases h with h | h | h
  · rw [if_pos (Or.inl h)]
  · rw [if_pos (Or.inr h)]
  · by_cases hbb : (rasterBounds uv texW texH).1 ≥ (rasterBounds uv texW texH).2.1 ∨
        (rasterBounds uv texW texH).2.2.1 ≥ (rasterBounds uv texW texH).2.2.2
    · rw [if_pos hbb]
    · rw [if_neg hbb]
      dsimp only
      rw [if_pos h]

/-- C10: a face whose clamped texel bounding box is degenerate
(`min_u ≥ max_u` or `min_v ≥ max_v`) or whose UV edge determinant has
absolute value below `1e-8` leaves the texture accumulator and the weight
buffer entirely unchanged, and starting from zero buffers every texel stays
at zero weight and black after normalisation. -/
theorem C10_rasterize_skips_degenerate (tri : Vec3Q × Vec3Q × Vec3Q)
    (uv : Vec2Q × Vec2Q × Vec2Q) (view : BakeView) (texW texH : ℕ)
    (tex : TexBuf) (weights : WBuf)
    (h : (rasterBounds uv texW texH).1 ≥ (rasterBounds uv texW texH).2.1 ∨
      (rasterBounds uv texW texH).2.2.1 ≥ (rasterBounds uv texW texH).2.2.2 ∨
      |rasterDenom uv texW texH| < 1 / 100000000) :
    rasterizeFace tri uv view texW texH tex weights = (tex, weights) ∧
    (∀ y x : ℕ,
      (rasterizeFace tri uv view texW texH (fun _ _ => (0, 0, 0)) (fun _ _ => 0)).2 y x
        = 0 ∧
      finalizeTexture
        (rasterizeFace tri uv view texW texH (fun _ _ => (0, 0, 0)) (fun _ _ => 0)).1
        (rasterizeFace tri uv view texW texH (fun _ _ => (0, 0, 0)) (fun _ _ => 0)).2
        y x = (0, 0, 0)) := by
  refine ⟨rasterizeFace_skip tri uv view texW texH h tex weights, ?_⟩
  intro y x
  rw [rasterizeFace_skip tri uv view texW texH h _ _]
  exact ⟨rfl, finalizeTexture_zero y x⟩

/-- A placeholder view used to instantiate witnesses. -/
def trivialView : BakeView :=
  { image := fun _ _ => (0, 0, 0), img_h := 1, img_w := 1, world_to_cam := {},
    fx := 1, fy := 1, cx := 0, cy := 0, eye := ⟨0, 0, 0⟩ }

lemma C10_witness_bounds :
    (rasterBounds (⟨0, 0⟩, ⟨0, 0⟩, ⟨0, 0⟩) 8 8).1
        ≥ (rasterBounds (⟨0, 0⟩, ⟨0, 0⟩, ⟨0, 0⟩) 8 8).2.1 ∨
      (rasterBounds (⟨0, 0⟩, ⟨0, 0⟩, ⟨0, 0⟩) 8 8).2.2.1
        ≥ (rasterBounds (⟨0, 0⟩, ⟨0, 0⟩, ⟨0, 0⟩) 8 8).2.2.2 ∨
      |rasterDenom (⟨0, 0⟩, ⟨0, 0⟩, ⟨0, 0⟩) 8 8| < 1 / 100000000 := by
  left
  norm_num [rasterBounds, uvPx, min3, max3]

/-- Witness for C10: a face whose three UVs coincide has a collapsed
bounding box and is skipped. -/
theorem C10_witness :
    ((rasterBounds (⟨0, 0⟩, ⟨0, 0⟩, ⟨0, 0⟩) 8 8).1
        ≥ (rasterBounds (⟨0, 0⟩, ⟨0, 0⟩, ⟨0, 0⟩) 8 8).2.1 ∨
      (rasterBounds (⟨0, 0⟩, ⟨0, 0⟩, ⟨0, 0⟩) 8 8).2.2.1
        ≥ (rasterBounds (⟨0, 0⟩, ⟨0, 0⟩, ⟨0, 0⟩) 8 8).2.2.2 ∨
      |rasterDenom (⟨0, 0⟩, ⟨0, 0⟩, ⟨0, 0⟩) 8 8| < 1 / 100000000) ∧
    rasterizeFace (⟨0, 0, 0⟩, ⟨1, 0, 0⟩, ⟨0, 1, 0⟩) (⟨0, 0⟩, ⟨0, 0⟩, ⟨0, 0⟩)
      trivialView 8 8 (fun _ _ => (0, 0, 0)) (fun _ _ => 0)
      = ((fun _ _ => (0, 0, 0)), (fun _ _ => 0)) :=
  ⟨C10_witness_bounds,
    (C10_rasterize_skips_degenerate (⟨0, 0, 0⟩, ⟨1, 0, 0⟩, ⟨0, 1, 0⟩)
      (⟨0, 0⟩, ⟨0, 0⟩, ⟨0, 0⟩) trivialView 8 8 _ _ C10_witness_bounds).1⟩

/-! ## Pointwise characterisation of the rasterization loop -/

/-- A texel is accepted by the loop body iff its barycentric coordinates are
all non-negative and the colour sample succeeds. -/
def rasterAccept (tri : Vec3Q × Vec3Q × Vec3Q) (view : BakeView)
    (a v0 v1 : ℚ × ℚ) (denom : ℚ) (y x : ℤ) : Prop :=
  ¬ ((rasterBary a v0 v1 denom y x).1 < 0 ∨ (rasterBary a v0 v1 denom y x).2.1 < 0 ∨
      (rasterBary a v0 v1 denom y x).2.2 < 0) ∧
  (sampleViewColor (rasterPoint tri a v0 v1 denom y x) view view.img_w view.img_h).isSome

instance rasterAcceptDecidable (tri : Vec3Q × Vec3Q × Vec3Q) (view : BakeView)
    (a v0 v1 : ℚ × ℚ) (denom : ℚ) (y x : ℤ) :
    Decidable (rasterAccept tri view a v0 v1 denom y x) := by
  unfold rasterAccept
  infer_instance

/-- The colour accumulated for an accepted texel. -/
def rasterColor (tri : Vec3Q × Vec3Q × Vec3Q) (view : BakeView)
    (a v0 v1 : ℚ × ℚ) (denom : ℚ) (y x : ℤ) : ℚ × ℚ × ℚ :=
  (sampleViewColor (rasterPoint tri a v0 v1 denom y x) view view.img_w
    view.img_h).getD (0, 0, 0)

lemma updBuf_self {α : Type} (buf : ℕ → ℕ → α) (r c : ℕ) (v : α) :
    updBuf buf r c v r c = v := if_pos ⟨rfl, rfl⟩

lemma updBuf_other {α : Type} (buf : ℕ → ℕ → α) (r c : ℕ) (v : α) {r' c' : ℕ}
    (h : ¬ (r' = r ∧ c' = c)) : updBuf buf r c v r' c' = buf r' c' := if_neg h

lemma rasterStep_reject (tri : Vec3Q × Vec3Q × Vec3Q) (view : BakeView)
    (a v0 v1 : ℚ × ℚ) (denom : ℚ) (y x : ℤ)
    (h : ¬ rasterAccept tri view a v0 v1 denom y x) (bufs : TexBuf × WBuf) :
    rasterStep tri view a v0 v1 denom bufs y x = bufs := by
  unfold rasterStep
  by_cases hb : (rasterBary a v0 v1 denom y x).1 < 0 ∨
      (rasterBary a v0 v1 denom y x).2.1 < 0 ∨ (rasterBary a v0 v1 denom y x).2.2 < 0
  · rw [if_pos hb]
  · rw [if_neg hb]
    have hs : ¬ (sampleViewColor (rasterPoint tri a v0 v1 denom y x) view
        view.img_w view.img_h).isSome := fun hs => h ⟨hb, hs⟩
    cases hsc : sampleViewColor (rasterPoint tri a v0 v1 denom y x) view
        view.img_w view.img_h with
    | none => rfl
    | some color => exact absurd (by rw [hsc]; rfl) hs

lemma rasterStep_accept (tri : Vec3Q × Vec3Q × Vec3Q) (view : BakeView)
    (a v0 v1 : ℚ × ℚ) (denom : ℚ) (y x : ℤ)
    (h : rasterAccept tri view a v0 v1 denom y x) (bufs : TexBuf × WBuf) :
    rasterStep tri view a v0 v1 denom bufs y x =
      (updBuf bufs.1 y.toNat x.toNat
        (rgbAdd (bufs.1 y.toNat x.toNat) (rasterColor tri view a v0 v1 denom y x)),
       updBuf bufs.2 y.toNat x.toNat (bufs.2 y.toNat x.toNat + 1)) := by
  unfold rasterStep
  rw [if_neg h.1]
  have hs := h.2
  cases hsc : sampleViewColor (rasterPoint tri a v0 v1 denom y x) view
      view.img_w view.img_h with
  | none => rw [hsc] at hs; simp at hs
  | some color =>
      unfold rasterColor
      rw [hsc]
      rfl

lemma rasterStep_other (tri : Vec3Q × Vec3Q × Vec3Q) (view : BakeView)
    (a v0 v1 : ℚ × ℚ) (denom : ℚ) (y x : ℤ) (bufs : TexBuf × WBuf) {r c : ℕ}
    (h : ¬ (r = y.toNat ∧ c = x.toNat)) :
    (rasterStep tri view a v0 v1 denom bufs y x).1 r c = bufs.1 r c ∧
    (rasterStep tri view a v0 v1 denom bufs y x).2 r c = bufs.2 r c := by
  by_cases ha : rasterAccept tri view a v0 v1 denom y x
  · rw [rasterStep_accept tri view a v0 v1 denom y x ha bufs]
    exact ⟨updBuf_other _ _ _ _ h, updBuf_other _ _ _ _ h⟩
  · rw [rasterStep_reject tri view a v0 v1 denom y x ha bufs]
    exact ⟨rfl, rfl⟩

lemma mem_intRangeIncl {lo hi x : ℤ} : x ∈ intRangeIncl lo hi ↔ lo ≤ x ∧ x ≤ hi := by
  unfold intRangeIncl
  simp only [List.mem_map, List.mem_range]
  constructor
  · rintro ⟨t, ht, rfl⟩
    have := Int.lt_toNat.mp ht
    omega
  · rintro ⟨h1, h2⟩
    refine ⟨(x - lo).toNat, ?_, ?_⟩
    · rw [Int.lt_toNat]
      omega
    · omega

lemma intRangeIncl_nodup (lo hi : ℤ) : (intRangeIncl lo hi).Nodup := by
  unfold intRangeIncl
  exact (List.nodup_range _).map (fun s t h => by omega)

lemma innerFold_preserve (tri : Vec3Q × Vec3Q × Vec3Q) (view : BakeView)
    (a v0 v1 : ℚ × ℚ) (denom : ℚ) (y : ℤ) (r c : ℕ) :
    ∀ (xs : List ℤ), (r ≠ y.toNat ∨ ∀ x ∈ xs, x.toNat ≠ c) →
    ∀ bufs : TexBuf × WBuf,
      ((xs.foldl (fun bufs (x : ℤ) => rasterStep tri view a v0 v1 denom bufs y x)
          bufs).1 r c = bufs.1 r c) ∧
      ((xs.foldl (fun bufs (x : ℤ) => rasterStep tri view a v0 v1 denom bufs y x)
          bufs).2 r c = bufs.2 r c) := by
  intro xs
  induction xs with
  | nil => intro _ bufs; exact ⟨rfl, rfl⟩
  | cons x xs ih =>
      intro h bufs
      have hx : ¬ (r = y.toNat ∧ c = x.toNat) := by
        rcases h with h | h
        · exact fun hc => h hc.1
        · exact fun hc => h x (by simp) hc.2.symm
      have htail : r ≠ y.toNat ∨ ∀ x' ∈ xs, x'.toNat ≠ c := by
        rcases h with h | h
        · exact Or.inl h
        · exact Or.inr (fun x' hx' => h x' (by simp [hx']))
      have hstep := rasterStep_other tri view a v0 v1 denom y x bufs hx
      have hrest := ih htail (rasterStep tri view a v0 v1 denom bufs y x)
      simp only [List.foldl_cons]
      exact ⟨hrest.1.trans hstep.1, hrest.2.trans hstep.2⟩

lemma innerFold_update (tri : Vec3Q × Vec3Q × Vec3Q) (view : BakeView)
    (a v0 v1 : ℚ × ℚ) (denom : ℚ) (y : ℤ) :
    ∀ (xs : List ℤ), xs.Nodup → (∀ x ∈ xs, 0 ≤ x) → ∀ x₀ ∈ xs,
    ∀ bufs : TexBuf × WBuf,
      ((xs.foldl (fun bufs (x : ℤ) => rasterStep tri view a v0 v1 denom bufs y x)
          bufs).1 y.toNat x₀.toNat =
        if rasterAccept tri view a v0 v1 denom y x₀
        then rgbAdd (bufs.1 y.toNat x₀.toNat) (rasterColor tri view a v0 v1 denom y x₀)
        else bufs.1 y.toNat x₀.toNat) ∧
      ((xs.foldl (fun bufs (x : ℤ) => rasterStep tri view a v0 v1 denom bufs y x)
          bufs).2 y.toNat x₀.toNat =
        if rasterAccept tri view a v0 v1 denom y x₀
        then bufs.2 y.toNat x₀.toNat + 1
        else bufs.2 y.toNat x₀.toNat) := by
  intro xs
  induction xs with
  | nil => intro _ _ x₀ hx₀; simp at hx₀
  | cons x xs ih =>
      intro hnd hpos x₀ hx₀ bufs
      simp only [List.foldl_cons]
      by_cases hhead : x₀ = x
      · subst hhead
        have h0 : 0 ≤ x₀ := hpos x₀ (by simp)
        have hxs : ∀ x' ∈ xs, x'.toNat ≠ x₀.toNat := by
          intro x' hx' heq
          have h0' : 0 ≤ x' := hpos x' (by simp [hx'])
          have hx'eq : x' = x₀ := by omega
          subst hx'eq
          exact (List.nodup_cons.mp hnd).1 hx'
        have hpres := innerFold_preserve tri view a v0 v1 denom y y.toNat x₀.toNat xs
          (Or.inr hxs) (rasterStep tri view a v0 v1 denom bufs y x₀)
        by_cases ha : rasterAccept tri view a v0 v1 denom y x₀
        · rw [if_pos ha, if_pos ha]
          constructor
          · rw [hpres.1, rasterStep_accept tri view a v0 v1 denom y x₀ ha bufs]
            exact updBuf_self _ _ _ _
          · rw [hpres.2, rasterStep_accept tri view a v0 v1 denom y x₀ ha bufs]
            exact updBuf_self _ _ _ _
        · rw [if_neg ha, if_neg ha, rasterStep_reject tri view a v0 v1 denom y x₀ ha bufs]
          exact innerFold_preserve tri view a v0 v1 denom y y.toNat x₀.toNat xs
            (Or.inr hxs) bufs
      · have hmem : x₀ ∈ xs := by
          rcases List.mem_cons.mp hx₀ with h | h
          · exact absurd h hhead
          · exact h
        have h0 : 0 ≤ x₀ := hpos x₀ hx₀
        have h0x : 0 ≤ x := hpos x (by simp)
        have hne : ¬ (y.toNat = y.toNat ∧ x₀.toNat = x.toNat) := by
          rintro ⟨_, heq⟩
          exact hhead (by omega)
        have hstep := rasterStep_other tri view a v0 v1 denom y x bufs hne
        have hrest := ih (List.nodup_cons.mp hnd).2 (fun x' hx' => hpos x' (by simp [hx']))
          x₀ hmem (rasterStep tri view a v0 v1 denom bufs y x)
        rw [hstep.1, hstep.2] at hrest
        exact hrest

lemma outerFold_preserve (tri : Vec3Q × Vec3Q × Vec3Q) (view : BakeView)
    (a v0 v1 : ℚ × ℚ) (denom : ℚ) (xs : List ℤ) (r c : ℕ) :
    ∀ (ys : List ℤ), ((∀ y ∈ ys, y.toNat ≠ r) ∨ (∀ x ∈ xs, x.toNat ≠ c)) →
    ∀ bufs : TexBuf × WBuf,
      ((ys.foldl (fun bufs (y : ℤ) =>
          xs.foldl (fun bufs (x : ℤ) => rasterStep tri view a v0 v1 denom bufs y x) bufs)
          bufs).1 r c = bufs.1 r c) ∧
      ((ys.foldl (fun bufs (y : ℤ) =>
          xs.foldl (fun bufs (x : ℤ) => rasterStep tri view a v0 v1 denom bufs y x) bufs)
          bufs).2 r c = bufs.2 r c) := by
  intro ys
  induction ys with
  | nil => intro _ bufs; exact ⟨rfl, rfl⟩
  | cons y ys ih =>
      intro h bufs
      have hrow : r ≠ y.toNat ∨ ∀ x ∈ xs, x.toNat ≠ c := by
        rcases h with h | h
        · exact Or.inl (fun hc => h y (by simp) hc.symm)
        · exact Or.inr h
      have htail : (∀ y' ∈ ys, y'.toNat ≠ r) ∨ ∀ x ∈ xs, x.toNat ≠ c := by
        rcases h with h | h
        · exact Or.inl (fun y' hy' => h y' (by simp [hy']))
        · exact Or.inr h
      have hstep := innerFold_preserve tri view a v0 v1 denom y r c xs hrow bufs
      have hrest := ih htail
        (xs.foldl (fun bufs (x : ℤ) => rasterStep tri view a v0 v1 denom bufs y x) bufs)
      simp only [List.foldl_cons]
      exact ⟨hrest.1.trans hstep.1, hrest.2.trans hstep.2⟩

lemma outerFold_update (tri : Vec3Q × Vec3Q × Vec3Q) (view : BakeView)
    (a v0 v1 : ℚ × ℚ) (denom : ℚ) (xs : List ℤ) (hxnd : xs.Nodup)
    (hxpos : ∀ x ∈ xs, 0 ≤ x) (x₀ : ℤ) (hx₀ : x₀ ∈ xs) :
    ∀ (ys : List ℤ), ys.Nodup → (∀ y ∈ ys, 0 ≤ y) → ∀ y₀ ∈ ys,
    ∀ bufs : TexBuf × WBuf,
      ((ys.foldl (fun bufs (y : ℤ) =>
          xs.foldl (fun bufs (x : ℤ) => rasterStep tri view a v0 v1 denom bufs y x) bufs)
          bufs).1 y₀.toNat x₀.toNat =
        if rasterAccept tri view a v0 v1 denom y₀ x₀
        then rgbAdd (bufs.1 y₀.toNat x₀.toNat) (rasterColor tri view a v0 v1 denom y₀ x₀)
        else bufs.1 y₀.toNat x₀.toNat) ∧
      ((ys.foldl (fun bufs (y : ℤ) =>
          xs.foldl (fun bufs (x : ℤ) => rasterStep tri view a v0 v1 denom bufs y x) bufs)
          bufs).2 y₀.toNat x₀.toNat =
        if rasterAccept tri view a v0 v1 denom y₀ x₀
        then bufs.2 y₀.toNat x₀.toNat + 1
        else bufs.2 y₀.toNat x₀.toNat) := by
  intro ys
  induction ys with
  | nil => intro _ _ y₀ hy₀; simp at hy₀
  | cons y ys ih =>
      intro hnd hpos y₀ hy₀ bufs
      simp only [List.foldl_cons]
      by_cases hhead : y₀ = y
      · subst hhead
        have h0 : 0 ≤ y₀ := hpos y₀ (by simp)
        have hys : ∀ y' ∈ ys, y'.toNat ≠ y₀.toNat := by
          intro y' hy' heq
          have h0' : 0 ≤ y' := hpos y' (by simp [hy'])
          have hy'eq : y' = y₀ := by omega
          subst hy'eq
          exact (List.nodup_cons.mp hnd).1 hy'
        have hpres := outerFold_preserve tri view a v0 v1 denom xs y₀.toNat x₀.toNat ys
          (Or.inl hys)
          (xs.foldl (fun bufs (x : ℤ) => rasterStep tri view a v0 v1 denom bufs y₀ x) bufs)
        have hinner := innerFold_update tri view a v0 v1 denom y₀ xs hxnd hxpos x₀ hx₀ bufs
        exact ⟨hpres.1.trans hinner.1, hpres.2.trans hinner.2⟩
      · have hmem : y₀ ∈ ys := by
          rcases List.mem_cons.mp hy₀ with h | h
          · exact absurd h hhead
          · exact h
        have h0 : 0 ≤ y₀ := hpos y₀ hy₀
        have h0y : 0 ≤ y := hpos y (by simp)
        have hrow : y₀.toNat ≠ y.toNat := fun heq => hhead (by omega)
        have hstep := innerFold_preserve tri view a v0 v1 denom y y₀.toNat x₀.toNat xs
          (Or.inl hrow) bufs
        have hrest := ih (List.nodup_cons.mp hnd).2 (fun y' hy' => hpos y' (by simp [hy']))
          y₀ hmem
          (xs.foldl (fun bufs (x : ℤ) => rasterStep tri view a v0 v1 denom bufs y x) bufs)
        rw [hstep.1, hstep.2] at hrest
        exact hrest

lemma rasterBounds_nonneg (uv : Vec2Q × Vec2Q × Vec2Q) (texW texH : ℕ) :
    0 ≤ (rasterBounds uv texW texH).1 ∧ 0 ≤ (rasterBounds uv texW texH).2.2.1 :=
  ⟨le_max_right _ _, le_max_right _ _⟩

/-- Pointwise value of `_rasterize_face` at a texel inside the scanned
bounding box of a non-degenerate face: the texel is bumped by one weight and
one colour sample exactly when it is accepted. -/
lemma rasterizeFace_in (tri : Vec3Q × Vec3Q × Vec3Q) (uv : Vec2Q × Vec2Q × Vec2Q)
    (view : BakeView) (texW texH : ℕ) (tex : TexBuf) (w : WBuf) (r c : ℕ)
    (hbb : ¬ ((rasterBounds uv texW texH).1 ≥ (rasterBounds uv texW texH).2.1 ∨
      (rasterBounds uv texW texH).2.2.1 ≥ (rasterBounds uv texW texH).2.2.2))
    (hden : ¬ (|rasterDenom uv texW texH| < 1 / 100000000))
    (hr1 : (rasterBounds uv texW texH).2.2.1 ≤ (r : ℤ))
    (hr2 : (r : ℤ) ≤ (rasterBounds uv texW texH).2.2.2)
    (hc1 : (rasterBounds uv texW texH).1 ≤ (c : ℤ))
    (hc2 : (c : ℤ) ≤ (rasterBounds uv texW texH).2.1) :
    ((rasterizeFace tri uv view texW texH tex w).1 r c =
      if rasterAccept tri view (uvPx uv.1 texW texH) (rasterV0 uv texW texH)
          (rasterV1 uv texW texH) (rasterDenom uv texW texH) (r : ℤ) (c : ℤ)
      then rgbAdd (tex r c) (rasterColor tri view (uvPx uv.1 texW texH)
        (rasterV0 uv texW texH) (rasterV1 uv texW texH) (rasterDenom uv texW texH)
        (r : ℤ) (c : ℤ))
      else tex r c) ∧
    ((rasterizeFace tri uv view texW texH tex w).2 r c =
      if rasterAccept tri view (uvPx uv.1 texW texH) (rasterV0 uv texW texH)
          (rasterV1 uv texW texH) (rasterDenom uv texW texH) (r : ℤ) (c : ℤ)
      then w r c + 1 else w r c) := by
  unfold rasterizeFace
  dsimp only
  rw [if_neg hbb, if_neg hden]
  have hxpos : ∀ x ∈ intRangeIncl (rasterBounds uv texW texH).1
      (rasterBounds uv texW texH).2.1, 0 ≤ x := by
    intro x hx
    have := (mem_intRangeIncl.mp hx).1
    have h0 := (rasterBounds_nonneg uv texW texH).1
    omega
  have hypos : ∀ y ∈ intRangeIncl (rasterBounds uv texW texH).2.2.1
      (rasterBounds uv texW texH).2.2.2, 0 ≤ y := by
    intro y hy
    have := (mem_intRangeIncl.mp hy).1
    have h0 := (rasterBounds_nonneg uv texW texH).2
    omega
  have hmain := outerFold_update tri view (uvPx uv.1 texW texH)
    (rasterV0 uv texW texH) (rasterV1 uv texW texH) (rasterDenom uv texW texH)
    (intRangeIncl (rasterBounds uv texW texH).1 (rasterBounds uv texW texH).2.1)
    (intRangeIncl_nodup _ _) hxpos (c : ℤ) (mem_intRangeIncl.mpr ⟨hc1, hc2⟩)
    (intRangeIncl (rasterBounds uv texW texH).2.2.1 (rasterBounds uv texW texH).2.2.2)
    (intRangeIncl_nodup _ _) hypos (r : ℤ) (mem_intRangeIncl.mpr ⟨hr1, hr2⟩)
    (tex, w)
  simpa using hmain

/-- Pointwise value of `_rasterize_face` at a texel outside the scanned
bounding box of a non-degenerate face: both buffers are untouched there. -/
lemma rasterizeFace_out (tri : Vec3Q × Vec3Q × Vec3Q) (uv : Vec2Q × Vec2Q × Vec2Q)
    (view : BakeView) (texW texH : ℕ) (tex : TexBuf) (w : WBuf) (r c : ℕ)
    (hbb : ¬ ((rasterBounds uv texW texH).1 ≥ (rasterBounds uv texW texH).2.1 ∨
      (rasterBounds uv texW texH).2.2.1 ≥ (rasterBounds uv texW texH).2.2.2))
    (hden : ¬ (|rasterDenom uv texW texH| < 1 / 100000000))
    (hout : ¬ (((rasterBounds uv texW texH).2.2.1 ≤ (r : ℤ) ∧
        (r : ℤ) ≤ (rasterBounds uv texW texH).2.2.2) ∧
      ((rasterBounds uv texW texH).1 ≤ (c : ℤ) ∧
        (c : ℤ) ≤ (rasterBounds uv texW texH).2.1))) :
    (rasterizeFace tri uv view texW texH tex w).1 r c = tex r c ∧
    (rasterizeFace tri uv view texW texH tex w).2 r c = w r c := by
  unfold rasterizeFace
  dsimp only
  rw [if_neg hbb, if_neg hden]
  by_cases hcol : (rasterBounds uv texW texH).1 ≤ (c : ℤ) ∧
      (c : ℤ) ≤ (rasterBounds uv texW texH).2.1
  · have hrow : ¬ ((rasterBounds uv texW texH).2.2.1 ≤ (r : ℤ) ∧
        (r : ℤ) ≤ (rasterBounds uv texW texH).2.2.2) := fun hr => hout ⟨hr, hcol⟩
    refine outerFold_preserve tri view (uvPx uv.1 texW texH) (rasterV0 uv texW texH)
      (rasterV1 uv texW texH) (rasterDenom uv texW texH) _ r c _ (Or.inl ?_) (tex, w)
    intro y hy heq
    have hmem := mem_intRangeIncl.mp hy
    have h0 := (rasterBounds_nonneg uv texW texH).2
    exact hrow ⟨by omega, by omega⟩
  · refine outerFold_preserve tri view (uvPx uv.1 texW texH) (rasterV0 uv texW texH)
      (rasterV1 uv texW texH) (rasterDenom uv texW texH) _ r c _ (Or.inr ?_) (tex, w)
    intro x hx heq
    have hmem := mem_intRangeIncl.mp hx
    have h0 := (rasterBounds_nonneg uv texW texH).1
    exact hcol ⟨by omega, by omega⟩

/-! ## C5 scenario: a single non-degenerate triangle with the trivial UV
unwrap (UV = XY) and one camera looking straight at it. -/

def vertsC5 : List Vec3Q := [⟨0, 0, 0⟩, ⟨1, 0, 0⟩, ⟨0, 1, 0⟩]

def facesC5 : List (ℕ × ℕ × ℕ) := [(0, 1, 2)]

def uvsC5 : List Vec2Q := [⟨0, 0⟩, ⟨1, 0⟩, ⟨0, 1⟩]

def triC5 : Vec3Q × Vec3Q × Vec3Q := (⟨0, 0, 0⟩, ⟨1, 0, 0⟩, ⟨0, 1, 0⟩)

def uvC5 : Vec2Q × Vec2Q × Vec2Q := (⟨0, 0⟩, ⟨1, 0⟩, ⟨0, 1⟩)

/-- `world_to_cam` of the camera at `(1/3, 1/3, -2)` looking straight down
the `+z` axis at the triangle (identity rotation, translation `-eye`). -/
def w2cC5 : Mat4Q :=
  { m00 := 1, m11 := 1, m22 := 1, m03 := -1/3, m13 := -1/3, m23 := 2 }

def viewC5 : BakeView :=
  { image := fun _ _ => (200, 100, 50), img_h := 64, img_w := 64,
    world_to_cam := w2cC5, fx := 16, fy := 16, cx := 32, cy := 32,
    eye := ⟨1/3, 1/3, -2⟩ }

/-- A texel lies inside the triangle's projected UV footprint iff its
barycentric coordinates with respect to the texel-space UV triangle are all
non-negative. -/
def insideFootprint (uv : Vec2Q × Vec2Q × Vec2Q) (texW texH : ℕ) (y x : ℤ) : Prop :=
  0 ≤ (rasterBary (uvPx uv.1 texW texH) (rasterV0 uv texW texH)
      (rasterV1 uv texW texH) (rasterDenom uv texW texH) y x).1 ∧
  0 ≤ (rasterBary (uvPx uv.1 texW texH) (rasterV0 uv texW texH)
      (rasterV1 uv texW texH) (rasterDenom uv texW texH) y x).2.1 ∧
  0 ≤ (rasterBary (uvPx uv.1 texW texH) (rasterV0 uv texW texH)
      (rasterV1 uv texW texH) (rasterDenom uv texW texH) y x).2.2

lemma uvPxC5_a : uvPx uvC5.1 8 8 = (0, 7) := by
  unfold uvPx uvC5
  norm_num

lemma rasterV0_C5 : rasterV0 uvC5 8 8 = (7, 0) := by
  unfold rasterV0 uvPx uvC5
  norm_num

lemma rasterV1_C5 : rasterV1 uvC5 8 8 = (0, -7) := by
  unfold rasterV1 uvPx uvC5
  norm_num

lemma rasterDenom_C5 : rasterDenom uvC5 8 8 = -49 := by
  unfold rasterDenom
  rw [rasterV0_C5, rasterV1_C5]
  norm_num

lemma rasterBounds_C5 : rasterBounds uvC5 8 8 = (0, 7, 0, 7) := by
  unfold rasterBounds uvPx uvC5 min3 max3
  norm_num

/-- Any world point on the unit triangle patch (`z = 0`, `x, y ∈ [0, 1]`)
projects strictly inside the C5 camera image, so its colour sample
succeeds. -/
lemma C5_sample_some (p : Vec3Q) (h1 : 0 ≤ p.x) (h2 : p.x ≤ 1) (h3 : 0 ≤ p.y)
    (h4 : p.y ≤ 1) (h5 : p.z = 0) :
    (sampleViewColor p viewC5 64 64).isSome := by
  unfold sampleViewColor viewC5 w2cC5
  dsimp only
  rw [h5]
  rw [if_neg (by norm_num)]
  rw [if_neg ?hbnd]
  case hbnd =>
    push_neg
    have e1 : (16 : ℚ) * (1 * p.x + 0 * p.y + 0 * 0 + -1 / 3) /
        (0 * p.x + 0 * p.y + 1 * 0 + 2) + 32 = 8 * p.x + 88 / 3 := by
      ring
    have e2 : (16 : ℚ) * (0 * p.x + 1 * p.y + 0 * 0 + -1 / 3) /
        (0 * p.x + 0 * p.y + 1 * 0 + 2) + 32 = 8 * p.y + 88 / 3 := by
      ring
    rw [e1, e2]
    push_cast
    refine ⟨by linarith, by linarith, by linarith, by linarith⟩
  rfl

/-- In the C5 scenario a texel is accepted exactly when it lies inside the
projected UV footprint: the colour sample never fails on footprint texels. -/
lemma rasterAccept_C5_iff (y x : ℤ) :
    rasterAccept triC5 viewC5 (uvPx uvC5.1 8 8) (rasterV0 uvC5 8 8)
      (rasterV1 uvC5 8 8) (rasterDenom uvC5 8 8) y x ↔
    insideFootprint uvC5 8 8 y x := by
  unfold rasterAccept insideFootprint
  constructor
  · rintro ⟨hb, _⟩
    push_neg at hb
    exact ⟨hb.1, hb.2.1, hb.2.2⟩
  · intro hin
    obtain ⟨hu, hv, hw⟩ := hin
    constructor
    · push_neg
      exact ⟨hu, hv, hw⟩
    · have hw' : (rasterBary (uvPx uvC5.1 8 8) (rasterV0 uvC5 8 8) (rasterV1 uvC5 8 8)
          (rasterDenom uvC5 8 8) y x).2.2 =
          1 - (rasterBary (uvPx uvC5.1 8 8) (rasterV0 uvC5 8 8) (rasterV1 uvC5 8 8)
            (rasterDenom uvC5 8 8) y x).1 -
          (rasterBary (uvPx uvC5.1 8 8) (rasterV0 uvC5 8 8) (rasterV1 uvC5 8 8)
            (rasterDenom uvC5 8 8) y x).2.1 := rfl
      have hpt : rasterPoint triC5 (uvPx uvC5.1 8 8) (rasterV0 uvC5 8 8)
          (rasterV1 uvC5 8 8) (rasterDenom uvC5 8 8) y x =
          ⟨(rasterBary (uvPx uvC5.1 8 8) (rasterV0 uvC5 8 8) (rasterV1 uvC5 8 8)
              (rasterDenom uvC5 8 8) y x).1,
           (rasterBary (uvPx uvC5.1 8 8) (rasterV0 uvC5 8 8) (rasterV1 uvC5 8 8)
              (rasterDenom uvC5 8 8) y x).2.1, 0⟩ := by
        unfold rasterPoint triC5 v3add v3smul
        dsimp only
        simp only [Vec3Q.mk.injEq]
        refine ⟨by ring, by ring, by ring⟩
      rw [hpt]
      exact C5_sample_some _ hu (by rw [hw'] at hw; linarith) hv
        (by rw [hw'] at hw; linarith) rfl

lemma rnorm3_eq (v : Vec3Q) (q : ℚ) (h : v.x * v.x + v.y * v.y + v.z * v.z = q * q)
    (hq : 0 ≤ q) : rnorm3 v = (q : ℝ) := by
  unfold rnorm3
  rw [h]
  push_cast
  rw [show ((q : ℝ) * (q : ℝ)) = (q : ℝ) ^ 2 by ring]
  exact Real.sqrt_sq (by exact_mod_cast hq)

/-- In the C5 scenario the per-face view selection picks the single camera:
its score `2/(2+1e-8)` beats the initial best score `0`. -/
lemma selectViewForFace_C5 : selectViewForFace triC5 [viewC5] = some viewC5 := by
  have hnormal : v3cross (v3sub triC5.2.1 triC5.1) (v3sub triC5.2.2 triC5.1)
      = (⟨0, 0, 1⟩ : Vec3Q) := by
    unfold triC5 v3cross v3sub
    simp only [Vec3Q.mk.injEq]
    norm_num
  have hn1 : rnorm3 ⟨0, 0, 1⟩ = ((1 : ℚ) : ℝ) :=
    rnorm3_eq ⟨0, 0, 1⟩ 1 (by norm_num) (by norm_num)
  have hd : v3sub viewC5.eye
      (v3smul (1 / 3) (v3add (v3add triC5.1 triC5.2.1) triC5.2.2)) = ⟨0, 0, -2⟩ := by
    unfold viewC5 triC5 v3sub v3smul v3add
    simp only [Vec3Q.mk.injEq]
    norm_num
  have hn2 : rnorm3 ⟨0, 0, -2⟩ = ((2 : ℚ) : ℝ) :=
    rnorm3_eq ⟨0, 0, -2⟩ 2 (by norm_num) (by norm_num)
  unfold selectViewForFace
  dsimp only
  rw [hnormal, hn1]
  rw [if_neg (by norm_num)]
  simp only [List.foldl_cons, List.foldl_nil]
  rw [hd, hn2]
  dsimp only
  rw [if_pos ?hpos]
  case hpos =>
    push_cast
    norm_num

lemma bakeAccum_C5 :
    bakeAccum vertsC5 facesC5 uvsC5 [viewC5] 8
      = rasterizeFace triC5 uvC5 viewC5 8 8 (fun _ _ => (0, 0, 0)) (fun _ _ => 0) := by
  have h : bakeAccum vertsC5 facesC5 uvsC5 [viewC5] 8 =
      (match selectViewForFace triC5 [viewC5] with
        | none => ((fun _ _ => (0, 0, 0) : TexBuf), (fun _ _ => 0 : WBuf))
        | some view =>
            rasterizeFace triC5 uvC5 view 8 8 (fun _ _ => (0, 0, 0)) (fun _ _ => 0)) := rfl
  rw [h, selectViewForFace_C5]

lemma finalizeTexture_at (tex : TexBuf) (w : WBuf) (y x : ℕ)
    (h1 : tex y x = (0, 0, 0)) (h2 : w y x = 0) :
    finalizeTexture tex w y x = (0, 0, 0) := by
  unfold finalizeTexture
  rw [h1, h2]
  norm_num [toUint8]

/-- C5: baking the single non-degenerate triangle of the scenario with its
trivial UV unwrap and the one straight-on camera gives every texel inside
the projected UV footprint a nonzero weight, while every texel outside the
footprint keeps zero weight and is black (0,0,0) in the final image. -/
theorem C5_bake_single_triangle :
    ∀ y x : Fin 8,
      (0 < (bakeAccum vertsC5 facesC5 uvsC5 [viewC5] 8).2 (y : ℕ) (x : ℕ) ↔
        insideFootprint uvC5 8 8 ((y : ℕ) : ℤ) ((x : ℕ) : ℤ)) ∧
      (¬ insideFootprint uvC5 8 8 ((y : ℕ) : ℤ) ((x : ℕ) : ℤ) →
        bakeTexture vertsC5 facesC5 uvsC5 [viewC5] 8 (y : ℕ) (x : ℕ) = (0, 0, 0)) := by
  intro y x
  have hbb : ¬ ((rasterBounds uvC5 8 8).1 ≥ (rasterBounds uvC5 8 8).2.1 ∨
      (rasterBounds uvC5 8 8).2.2.1 ≥ (rasterBounds uvC5 8 8).2.2.2) := by
    rw [rasterBounds_C5]
    norm_num
  have hden : ¬ (|rasterDenom uvC5 8 8| < 1 / 100000000) := by
    rw [rasterDenom_C5]
    norm_num
  have hy := y.isLt
  have hx := x.isLt
  have hr1 : (rasterBounds uvC5 8 8).2.2.1 ≤ ((y : ℕ) : ℤ) := by
    rw [rasterBounds_C5]
    exact Int.natCast_nonneg _
  have hr2 : ((y : ℕ) : ℤ) ≤ (rasterBounds uvC5 8 8).2.2.2 := by
    rw [rasterBounds_C5]
    show ((y : ℕ) : ℤ) ≤ 7
    omega
  have hc1 : (rasterBounds uvC5 8 8).1 ≤ ((x : ℕ) : ℤ) := by
    rw [rasterBounds_C5]
    exact Int.natCast_nonneg _
  have hc2 : ((x : ℕ) : ℤ) ≤ (rasterBounds uvC5 8 8).2.1 := by
    rw [rasterBounds_C5]
    show ((x : ℕ) : ℤ) ≤ 7
    omega
  have hpt := rasterizeFace_in triC5 uvC5 viewC5 8 8 (fun _ _ => (0, 0, 0))
    (fun _ _ => 0) (y : ℕ) (x : ℕ) hbb hden hr1 hr2 hc1 hc2
  constructor
  · rw [bakeAccum_C5, hpt.2]
    by_cases hacc : rasterAccept triC5 viewC5 (uvPx uvC5.1 8 8) (rasterV0 uvC5 8 8)
        (rasterV1 uvC5 8 8) (rasterDenom uvC5 8 8) ((y : ℕ) : ℤ) ((x : ℕ) : ℤ)
    · rw [if_pos hacc]
      exact ⟨fun _ => (rasterAccept_C5_iff _ _).mp hacc, fun _ => by norm_num⟩
    · rw [if_neg hacc]
      exact ⟨fun h => absurd h (by norm_num),
        fun hin => absurd ((rasterAccept_C5_iff _ _).mpr hin) hacc⟩
  · intro hnin
    have hacc : ¬ rasterAccept triC5 viewC5 (uvPx uvC5.1 8 8) (rasterV0 uvC5 8 8)
        (rasterV1 uvC5 8 8) (rasterDenom uvC5 8 8) ((y : ℕ) : ℤ) ((x : ℕ) : ℤ) :=
      fun h => hnin ((rasterAccept_C5_iff _ _).mp h)
    unfold bakeTexture
    rw [bakeAccum_C5]
    apply finalizeTexture_at
    · rw [hpt.1, if_neg hacc]
    · rw [hpt.2, if_neg hacc]

/-- Witness for C5 at the concrete texel `(row 0, column 7)`, which lies
outside the footprint and stays black. -/
theorem C5_witness :
    ¬ insideFootprint uvC5 8 8 0 7 ∧
    bakeTexture vertsC5 facesC5 uvsC5 [viewC5] 8 0 7 = (0, 0, 0) := by
  have hnin : ¬ insideFootprint uvC5 8 8 0 7 := by
    unfold insideFootprint
    rw [uvPxC5_a, rasterV0_C5, rasterV1_C5, rasterDenom_C5]
    norm_num [rasterBary]
  exact ⟨hnin, (C5_bake_single_triangle 0 7).2 hnin⟩

/-! ## The `run` driver (`LocalReconstructor.run`, lines 45-213) and
`_build_frames` (lines 232-307).

The calls into open3d / trimesh / xatlas / the Blender subprocess and the
filesystem are modelled as oracle outcomes in `RunEnv`; the control flow
around them — the report milestones, the fallback chain with its mutable
`texture_enabled` / `texture_backend` flags, and the error paths — is
translated statement by statement.  The progress callback may raise an
arbitrary exception of type `ε`. -/

/-- `PipelineEvent` (events.py, lines 12-28). -/
structure PipelineEvent where
  kind : String
  stage : String
  ts_ns : ℕ
  message : Option String := none
  progress : Option ℚ := none

/-- `ReconOutputs` (lines 34-38); paths are strings. -/
structure ReconOutputs where
  mesh_path : Option String := none
  texture_path : Option String := none
  point_cloud_path : Option String := none
deriving DecidableEq

/-- The texture strategies of the fallback chain, recorded when `run`
enters the corresponding attempt. -/
inductive Strategy where
  | pyxatlasBake
  | blenderBake
  | untexturedExport
deriving DecidableEq

/-- The ways `run` can raise. -/
inductive RunError (ε : Type) where
  | callback (e : ε)
  | indexError
  | noValidViews
  | geometry
deriving DecidableEq

/-- Oracle outcomes for the external capabilities consumed by `run`. -/
structure RunEnv (ε : Type) where
  xatlasImportOk : Bool
  blenderPath : Option String
  fusionOk : Bool
  xatlasBakeOk : Bool
  blenderBakeOk : Bool
  now : ℕ → ℕ
  emit : Option (PipelineEvent → Except ε Unit)

/-- An RGBA image, rows of `(r, g, b, a)` byte quadruples. -/
def RGBAImage : Type := List (List (ℕ × ℕ × ℕ × ℕ))

/-- A grayscale depth image with its bit depth (`uint8` or `uint16`). -/
structure DepthImage where
  rows : List (List ℕ)
  is16bit : Bool

/-- `numpy` array shape `(height, width)` of a row-major image. -/
def imgShape {α : Type} (rows : List (List α)) : ℕ × ℕ :=
  (rows.length, (rows.headD []).length)

/-- `LocalReconstructor._load_color` (lines 381-386): split RGBA into the
RGB buffer and the alpha mask scaled to `[0, 1]`. -/
def loadColor (img : RGBAImage) : List (List (ℕ × ℕ × ℕ)) × List (List ℚ) :=
  (img.map (fun row => row.map (fun p => (p.1, p.2.1, p.2.2.1))),
   img.map (fun row => row.map (fun p => ((p.2.2.2 : ℚ) / 255))))

/-- `LocalReconstructor._load_depth` (lines 388-400): normalise by the
format maximum, optionally invert, rescale to `[near, far]`. -/
def loadDepth (config : PipelineConfig) (img : DepthImage) : List (List ℚ) :=
  let maxv : ℚ := if img.is16bit then 65535 else 255
  img.rows.map (fun row => row.map (fun v =>
    let d : ℚ := (v : ℚ) / maxv
    let d := if config.depth_invert then 1 - d else d
    config.depth_near + d * (config.depth_far - config.depth_near)))

/-- The alpha masking of `_build_frames` (lines 258-266): zero depth where
alpha is below `0.05`, skipped when the shapes mismatch. -/
def maskDepth (alpha : List (List ℚ)) (depth : List (List ℚ)) : List (List ℚ) :=
  if imgShape alpha = imgShape depth then
    List.zipWith (fun ar dr =>
      List.zipWith (fun a d => if a < 1 / 20 then 0 else d) ar dr) alpha depth
  else depth

/-- One in-memory frame.  The real-valued camera pose fields
(`cam_to_world`, `world_to_cam`, `eye`, intrinsics) are functions of
`(az, el)` through the camera model of the `lookAt` section and are omitted
from this record because no control-flow claim depends on their values. -/
structure ViewFrameM where
  index : ℤ
  color : List (List (ℕ × ℕ × ℕ))
  depth : List (List ℚ)
  az : ℚ
  el : ℚ

/-- Whether a frame has a non-empty depth/alpha-valid region. -/
def hasValidDepth (depth : List (List ℚ)) : Bool :=
  depth.any (fun row => row.any (fun v => 0 < v))

/-- Python list indexing (negative indices count from the end; out of range
raises). -/
def pyListGet {α : Type} (xs : List α) (i : ℤ) : Option α :=
  if 0 ≤ i then xs.get? i.toNat
  else if (-i).toNat ≤ xs.length then xs.get? (xs.length - (-i).toNat)
  else none

/-- The loop of `_build_frames` (lines 249-307): skip indices beyond the
view list or without a depth path, else load, mask and append a frame. -/
def buildFramesGo {ε : Type} (config : PipelineConfig)
    (view_paths : List RGBAImage) (depth_paths : ℤ → Option DepthImage)
    (angles : List (ℚ × ℚ)) : List ℤ → Except (RunError ε) (List ViewFrameM)
  | [] => .ok []
  | idx :: rest =>
      if (view_paths.length : ℤ) ≤ idx then
        buildFramesGo config view_paths depth_paths angles rest
      else
        match depth_paths idx with
        | none => buildFramesGo config view_paths depth_paths angles rest
        | some dimg =>
            match pyListGet view_paths idx with
            | none => .error .indexError
            | some cimg =>
                let ca := loadColor cimg
                let depth := maskDepth ca.2 (loadDepth config dimg)
                match pyListGet angles idx with
                | none => .error .indexError
                | some ae =>
                    match buildFramesGo config view_paths depth_paths angles rest with
                    | .error e => .error e
                    | .ok frames =>
                        .ok ({ index := idx, color := ca.1, depth := depth,
                               az := ae.1, el := ae.2 } :: frames)

/-- `LocalReconstructor._build_frames` (lines 232-307). -/
def buildFrames {ε : Type} (config : PipelineConfig)
    (view_paths : List RGBAImage) (depth_paths : ℤ → Option DepthImage)
    (indices : List ℤ) : Except (RunError ε) (List ViewFrameM) :=
  buildFramesGo config view_paths depth_paths
    (defaultAngles config view_paths.length) indices

/-- The body of `run.report` (lines 54-74): clamp the progress, emit an
optional log event then a progress event, threading the `now_ns()` call
counter; the callback's exception, if any, is returned to the caller. -/
def reportR {ε : Type} (emit : Option (PipelineEvent → Except ε Unit))
    (stage : String) (now : ℕ → ℕ) (clock : ℕ) (progress : ℚ)
    (message : Option String) : ℕ × Option ε :=
  match emit with
  | none => (clock, none)
  | some f =>
      let clamped := max 0 (min 1 progress)
      match message with
      | some m =>
          match f { kind := "log", stage := stage, ts_ns := now clock,
                    message := some m } with
          | .error e => (clock + 1, some e)
          | .ok _ =>
              match f { kind := "progress", stage := stage, ts_ns := now (clock + 1),
                        progress := some clamped } with
              | .error e => (clock + 2, some e)
              | .ok _ => (clock + 2, none)
      | none =>
          match f { kind := "progress", stage := stage, ts_ns := now clock,
                    progress := some clamped } with
          | .error e => (clock + 1, some e)
          | .ok _ => (clock + 1, none)

/-- A report call outside any `try` block: a callback exception aborts. -/
def reportE {ε : Type} (emit : Option (PipelineEvent → Except ε Unit))
    (stage : String) (now : ℕ → ℕ) (clock : ℕ) (progress : ℚ)
    (message : Option String) : Except (RunError ε) ℕ :=
  match reportR emit stage now clock progress message with
  | (c, none) => .ok c
  | (_, some e) => .error (.callback e)

/-- The fusion/meshing section (lines 130-140): report milestones around
the external fusion calls, which fail as a whole when the geometry oracle
fails. -/
def fusionPhase {ε : Type} (config : PipelineConfig) (env : RunEnv ε)
    (emit_stage : String) (clock : ℕ) : Except (RunError ε) ℕ :=
  if config.recon_fusion = "tsdf" then
    match reportE env.emit emit_stage env.now clock (3 / 10) (some "Fusing TSDF") with
    | .error e => .error e
    | .ok ca =>
        if !env.fusionOk then .error .geometry
        else reportE env.emit emit_stage env.now ca (13 / 20) (some "TSDF fusion complete")
  else
    match reportE env.emit emit_stage env.now clock (3 / 10) (some "Fusing points") with
    | .error e => .error e
    | .ok ca =>
        if !env.fusionOk then .error .geometry
        else
          match reportE env.emit emit_stage env.now ca (11 / 20) (some "Point fusion complete") with
          | .error e => .error e
          | .ok cb =>
              reportE env.emit emit_stage env.now cb (7 / 10) (some "Meshing complete")

/-- The pyxatlas attempt (lines 164-186).  The whole `try` body is guarded
by `except Exception`: the modelled failure point is `_unwrap_and_bake`
itself; after a successful bake the report's callback exception is also
caught.  On failure the handler clears `texture_enabled` and sets
`texture_backend = "blender"`.  Returns the updated
`(outputs, texture_enabled, texture_backend, attempts, clock)`. -/
def xatlasBranch {ε : Type} (env : RunEnv ε) (emit_stage out_dir : String)
    (texture_enabled : Bool) (texture_backend : String) (xatlas : Bool)
    (outputs : ReconOutputs) (clock : ℕ) :
    ReconOutputs × Bool × String × List Strategy × ℕ :=
  if texture_enabled && xatlas &&
      (texture_backend == "auto" || texture_backend == "pyxatlas") then
    if env.xatlasBakeOk then
      let outputs' := { outputs with
        texture_path := some (out_dir ++ "/albedo.png"),
        mesh_path := some (out_dir ++ "/model.glb") }
      let rc := reportR env.emit emit_stage env.now clock (19 / 20) (some "Texture baked")
      match rc.2 with
      | none => (outputs', texture_enabled, texture_backend, [.pyxatlasBake], rc.1)
      | some _ => (outputs', false, "blender", [.pyxatlasBake], rc.1)
    else
      (outputs, false, "blender", [.pyxatlasBake], clock)
  else (outputs, texture_enabled, texture_backend, [], clock)

/-- The Blender attempt (lines 187-201), analogous; on failure the handler
clears `texture_enabled`.  Returns `(outputs, texture_enabled, attempts,
clock)`. -/
def blenderBranch {ε : Type} (env : RunEnv ε) (emit_stage out_dir : String)
    (texture_enabled : Bool) (texture_backend : String)
    (blender_path : Option String) (outputs : ReconOutputs) (clock : ℕ) :
    ReconOutputs × Bool × List Strategy × ℕ :=
  if texture_enabled && blender_path.isSome &&
      (texture_backend == "auto" || texture_backend == "blender") &&
      outputs.mesh_path.isNone then
    if env.blenderBakeOk then
      let outputs' := { outputs with
        mesh_path := some (out_dir ++ "/model.glb"),
        texture_path := some (out_dir ++ "/albedo.png") }
      let rc := reportR env.emit emit_stage env.now clock (19 / 20) (some "Texture baked")
      match rc.2 with
      | none => (outputs', texture_enabled, [.blenderBake], rc.1)
      | some _ => (outputs', false, [.blenderBake], rc.1)
    else
      (outputs, false, [.blenderBake], clock)
  else (outputs, texture_enabled, [], clock)

/-- The untextured fallback export (lines 203-210). -/
def finalizeMesh (out_dir : String) (outputs : ReconOutputs) :
    ReconOutputs × List Strategy :=
  if outputs.mesh_path.isNone then
    ({ outputs with mesh_path := some (out_dir ++ "/model.glb") }, [.untexturedExport])
  else (outputs, [])

/-- The output section of `run` (lines 151-213): point-cloud export, the
fallback chain, the guaranteed mesh export and the final report. -/
def runTexture {ε : Type} (config : PipelineConfig) (env : RunEnv ε)
    (out_dir emit_stage : String) (texture_enabled : Bool)
    (texture_backend : String) (xatlas : Bool) (blender_path : Option String)
    (clock : ℕ) : Except (RunError ε) (ReconOutputs × List Strategy) :=
  let pts : Except (RunError ε) (ReconOutputs × ℕ) :=
    if config.points_enabled then
      match reportE env.emit emit_stage env.now clock (9 / 10)
          (some "Point cloud exported") with
      | .error e => .error e
      | .ok c => .ok ({ point_cloud_path := some (out_dir ++ "/points.ply") }, c)
    else .ok ({}, clock)
  match pts with
  | .error e => .error e
  | .ok pr =>
      let r1 := xatlasBranch env emit_stage out_dir texture_enabled texture_backend
        xatlas pr.1 pr.2
      let r2 := blenderBranch env emit_stage out_dir r1.2.1 r1.2.2.1 blender_path
        r1.1 r1.2.2.2.2
      let fz := finalizeMesh out_dir r2.1
      match reportE env.emit emit_stage env.now r2.2.2.2 1 (some "Rebuild complete") with
      | .error e => .error e
      | .ok _ => .ok (fz.1, r1.2.2.2.1 ++ r2.2.2.1 ++ fz.2)

/-- Python `str.lower()` on the backend name (ASCII). -/
def strLower (s : String) : String := ⟨s.data.map Char.toLower⟩

/-- `LocalReconstructor.run` (lines 45-213). -/
def runModel {ε : Type} (config : PipelineConfig) (env : RunEnv ε)
    (view_paths : List RGBAImage) (depth_paths : ℤ → Option DepthImage)
    (out_dir emit_stage : String) :
    Except (RunError ε) (ReconOutputs × List Strategy) :=
  match reportE env.emit emit_stage env.now 0 0 (some "Rebuild started") with
  | .error e => .error e
  | .ok c0 =>
    let texture_enabled := config.texture_enabled
    let texture_backend :=
      strLower (if config.texture_backend = "" then "auto" else config.texture_backend)
    let blender_path := env.blenderPath
    let xatlas := texture_enabled &&
      (texture_backend == "auto" || texture_backend == "pyxatlas") &&
      env.xatlasImportOk
    let texture_enabled :=
      if texture_enabled && texture_backend == "blender" && blender_path.isNone
      then false else texture_enabled
    let selected := selectViews config view_paths.length
    match buildFrames (ε := ε) config view_paths depth_paths selected with
    | .error e => .error e
    | .ok frames =>
      if frames.isEmpty then .error .noValidViews
      else
        match reportE env.emit emit_stage env.now c0 (1 / 5) (some "Prepared views") with
        | .error e => .error e
        | .ok c1 =>
          match fusionPhase config env emit_stage c1 with
          | .error e => .error e
          | .ok c2 =>
            match reportE env.emit emit_stage env.now c2 (4 / 5)
                (some "Mesh cleanup complete") with
            | .error e => .error e
            | .ok c3 =>
              match
                (if 0 < config.recon_target_tris then
                  reportE env.emit emit_stage env.now c3 (17 / 20)
                    (some "Mesh simplified")
                else .ok c3) with
              | .error e => .error e
              | .ok c4 =>
                  runTexture config env out_dir emit_stage texture_enabled
                    texture_backend xatlas blender_path c4

lemma defaultAngles_length (config : PipelineConfig) (count : ℕ) :
    (defaultAngles config count).length = count := by
  unfold defaultAngles
  cases hb : (if truthyList config.views_azimuths_deg ∧
      truthyList config.views_elevations_deg then
      let pairs := List.zip (config.views_azimuths_deg.getD [])
        (config.views_elevations_deg.getD [])
      if count ≤ pairs.length then some (pairs.take count) else none
    else none : Option (List (ℚ × ℚ))) with
  | none =>
      by_cases h6 : count = 6
      · rw [if_pos h6, h6]; rfl
      · rw [if_neg h6]; simp
  | some pairs =>
      by_cases hc : truthyList config.views_azimuths_deg ∧
          truthyList config.views_elevations_deg
      · rw [if_pos hc] at hb
        by_cases hlen : count ≤ (List.zip (config.views_azimuths_deg.getD [])
            (config.views_elevations_deg.getD [])).length
        · rw [if_pos hlen] at hb
          cases hb
          simpa using hlen
        · rw [if_neg hlen] at hb; cases hb
      · rw [if_neg hc] at hb; cases hb

lemma pyListGet_of_lt {α : Type} (xs : List α) (i : ℤ) (h0 : 0 ≤ i)
    (hlt : i < (xs.length : ℤ)) : ∃ a, pyListGet xs i = some a := by
  unfold pyListGet
  rw [if_pos h0]
  have hn : i.toNat < xs.length := by omega
  match hg : xs.get? i.toNat with
  | some a => exact ⟨a, rfl⟩
  | none => exact absurd (List.get?_eq_none.mp hg) (by omega)

lemma buildFramesGo_ok {ε : Type} (config : PipelineConfig)
    (view_paths : List RGBAImage) (depth_paths : ℤ → Option DepthImage)
    (angles : List (ℚ × ℚ)) (hang : angles.length = view_paths.length) :
    ∀ (idxs : List ℤ), (∀ i ∈ idxs, 0 ≤ i ∧ i < (view_paths.length : ℤ)) →
    ∃ fr, buildFramesGo (ε := ε) config view_paths depth_paths angles idxs = .ok fr ∧
      (fr = [] ↔ ∀ i ∈ idxs, depth_paths i = none) := by
  intro idxs
  induction idxs with
  | nil => intro _; exact ⟨[], rfl, by simp⟩
  | cons i rest ih =>
      intro hb
      obtain ⟨h0, hlt⟩ := hb i (by simp)
      have hrest := ih (fun j hj => hb j (by simp [hj]))
      obtain ⟨fr, hfr, hiff⟩ := hrest
      have hguard : ¬ (view_paths.length : ℤ) ≤ i := by omega
      cases hdp : depth_paths i with
      | none =>
          refine ⟨fr, ?_, ?_⟩
          · unfold buildFramesGo
            rw [if_neg hguard, hdp]
            exact hfr
          · rw [hiff]
            constructor
            · intro hall j hj
              rcases List.mem_cons.mp hj with rfl | hj'
              · exact hdp
              · exact hall j hj'
            · intro hall j hj
              exact hall j (by simp [hj])
      | some dimg =>
          obtain ⟨cimg, hc⟩ := pyListGet_of_lt view_paths i h0 hlt
          obtain ⟨ae, ha⟩ := pyListGet_of_lt angles i h0 (by rw [hang]; exact hlt)
          refine ⟨{ index := i, color := (loadColor cimg).1, depth := maskDepth (loadColor cimg).2 (loadDepth config dimg), az := ae.1, el := ae.2 } :: fr, ?_, ?_⟩
          · unfold buildFramesGo
            rw [if_neg hguard, hdp, hc, ha, hfr]
          · constructor
            · intro habs; cases habs
            · intro hall
              exact absurd (hall i (by simp)) (by simp [hdp])

lemma buildFrames_ok {ε : Type} (config : PipelineConfig)
    (view_paths : List RGBAImage) (depth_paths : ℤ → Option DepthImage)
    (idxs : List ℤ) (hb : ∀ i ∈ idxs, 0 ≤ i ∧ i < (view_paths.length : ℤ)) :
    ∃ fr, buildFrames (ε := ε) config view_paths depth_paths idxs = .ok fr ∧
      (fr = [] ↔ ∀ i ∈ idxs, depth_paths i = none) :=
  buildFramesGo_ok config view_paths depth_paths _
    (defaultAngles_length config view_paths.length) idxs hb

/-- The effective texture backend of `run` (line 79). -/
def effBackend (config : PipelineConfig) : String :=
  strLower (if config.texture_backend = "" then "auto" else config.texture_backend)

/-- The xatlas availability flag of `run` (lines 83-93). -/
def effXatlas {ε : Type} (config : PipelineConfig) (env : RunEnv ε) : Bool :=
  config.texture_enabled &&
    (effBackend config == "auto" || effBackend config == "pyxatlas") &&
    env.xatlasImportOk

/-- `texture_enabled` after the blender-unavailable disable (lines 94-96). -/
def effTextureEnabled {ε : Type} (config : PipelineConfig) (env : RunEnv ε) : Bool :=
  if config.texture_enabled && (effBackend config == "blender") &&
      env.blenderPath.isNone
  then false else config.texture_enabled

lemma reportE_none {ε : Type} (stage : String) (now : ℕ → ℕ) (clock : ℕ)
    (progress : ℚ) (message : Option String) :
    reportE (ε := ε) none stage now clock progress message = .ok clock := rfl

lemma finalizeMesh_isSome (out_dir : String) (o : ReconOutputs) :
    ((finalizeMesh out_dir o).1).mesh_path.isSome := by
  unfold finalizeMesh
  by_cases h : o.mesh_path.isNone
  · rw [if_pos h]; rfl
  · rw [if_neg h]
    cases ho : o.mesh_path with
    | none => rw [ho] at h; simp at h
    | some p => simp [ho]

lemma runTexture_ok_mesh {ε : Type} (config : PipelineConfig) (env : RunEnv ε)
    (out_dir emit_stage : String) (texture_enabled : Bool)
    (texture_backend : String) (xatlas : Bool) (blender_path : Option String)
    (clock : ℕ) (v : ReconOutputs × List Strategy)
    (h : runTexture config env out_dir emit_stage texture_enabled texture_backend
      xatlas blender_path clock = .ok v) : v.1.mesh_path.isSome := by
  unfold runTexture at h
  dsimp only at h
  split at h
  · exact absurd h (by simp)
  · split at h
    · exact absurd h (by simp)
    · simp only [Except.ok.injEq] at h
      rw [← h]
      exact finalizeMesh_isSome _ _

lemma fusionPhase_emitNone {ε : Type} (config : PipelineConfig) (env : RunEnv ε)
    (emit_stage : String) (clock : ℕ) (hemit : env.emit = none)
    (hfusion : env.fusionOk = true) :
    fusionPhase config env emit_stage clock = .ok clock := by
  unfold fusionPhase
  by_cases hf : config.recon_fusion = "tsdf" <;>
    simp [hf, hemit, reportE_none, hfusion]

lemma fusionPhase_geometry {ε : Type} (config : PipelineConfig) (env : RunEnv ε)
    (emit_stage : String) (clock : ℕ) (hemit : env.emit = none)
    (hfusion : env.fusionOk = false) :
    fusionPhase config env emit_stage clock = .error .geometry := by
  unfold fusionPhase
  by_cases hf : config.recon_fusion = "tsdf" <;>
    simp [hf, hemit, reportE_none, hfusion]

lemma runTexture_emitNone {ε : Type} (config : PipelineConfig) (env : RunEnv ε)
    (out_dir emit_stage : String) (texture_enabled : Bool)
    (texture_backend : String) (xatlas : Bool) (blender_path : Option String)
    (clock : ℕ) (hemit : env.emit = none) :
    runTexture config env out_dir emit_stage texture_enabled texture_backend
        xatlas blender_path clock =
      .ok
        (let o1 : ReconOutputs :=
          if config.points_enabled then
            { point_cloud_path := some (out_dir ++ "/points.ply") }
          else {}
        let r1 := xatlasBranch env emit_stage out_dir texture_enabled
          texture_backend xatlas o1 clock
        let r2 := blenderBranch env emit_stage out_dir r1.2.1 r1.2.2.1
          blender_path r1.1 r1.2.2.2.2
        let fz := finalizeMesh out_dir r2.1
        (fz.1, r1.2.2.2.1 ++ r2.2.2.1 ++ fz.2)) := by
  unfold runTexture
  by_cases hp : config.points_enabled <;>
    simp [hp, hemit, reportE_none]

lemma runModel_emitNone_ok {ε : Type} (config : PipelineConfig) (env : RunEnv ε)
    (view_paths : List RGBAImage) (depth_paths : ℤ → Option DepthImage)
    (out_dir emit_stage : String) (fr : List ViewFrameM)
    (hemit : env.emit = none) (hfusion : env.fusionOk = true)
    (hfr : buildFrames (ε := ε) config view_paths depth_paths
      (selectViews config view_paths.length) = .ok fr) :
    runModel config env view_paths depth_paths out_dir emit_stage =
      if fr.isEmpty then .error .noValidViews
      else
        runTexture config env out_dir emit_stage (effTextureEnabled config env)
          (effBackend config) (effXatlas config env) env.blenderPath 0 := by
  unfold runModel
  simp only [hemit, reportE_none, hfr]
  by_cases hempty : fr.isEmpty
  · rw [if_pos hempty, if_pos hempty]
  · rw [if_neg hempty, if_neg hempty]
    rw [fusionPhase_emitNone config env emit_stage 0 hemit hfusion]
    simp only [reportE_none, effBackend, effXatlas, effTextureEnabled]
    by_cases hts : 0 < config.recon_target_tris <;> simp [hts, reportE_none]

lemma runModel_emitNone_fusionFail {ε : Type} (config : PipelineConfig)
    (env : RunEnv ε) (view_paths : List RGBAImage)
    (depth_paths : ℤ → Option DepthImage) (out_dir emit_stage : String)
    (fr : List ViewFrameM) (hemit : env.emit = none)
    (hfusion : env.fusionOk = false)
    (hfr : buildFrames (ε := ε) config view_paths depth_paths
      (selectViews config view_paths.length) = .ok fr) :
    runModel config env view_paths depth_paths out_dir emit_stage =
      if fr.isEmpty then .error .noValidViews else .error .geometry := by
  unfold runModel
  simp only [hemit, reportE_none, hfr]
  by_cases hempty : fr.isEmpty
  · rw [if_pos hempty, if_pos hempty]
  · rw [if_neg hempty, if_neg hempty]
    rw [fusionPhase_geometry config env emit_stage 0 hemit hfusion]

lemma xatlasBranch_noXatlas {ε : Type} (env : RunEnv ε)
    (emit_stage out_dir : String) (texture_enabled : Bool)
    (texture_backend : String) (outputs : ReconOutputs) (clock : ℕ) :
    xatlasBranch env emit_stage out_dir texture_enabled texture_backend false
        outputs clock =
      (outputs, texture_enabled, texture_backend, [], clock) := by
  unfold xatlasBranch
  simp

lemma xatlasBranch_failure {ε : Type} (env : RunEnv ε)
    (emit_stage out_dir : String) (outputs : ReconOutputs) (clock : ℕ)
    (hxbake : env.xatlasBakeOk = false) :
    xatlasBranch env emit_stage out_dir true "auto" true outputs clock =
      (outputs, false, "blender", [Strategy.pyxatlasBake], clock) := by
  unfold xatlasBranch
  simp [hxbake]

lemma blenderBranch_noPath {ε : Type} (env : RunEnv ε)
    (emit_stage out_dir : String) (texture_enabled : Bool)
    (texture_backend : String) (outputs : ReconOutputs) (clock : ℕ) :
    blenderBranch env emit_stage out_dir texture_enabled texture_backend none
        outputs clock =
      (outputs, texture_enabled, [], clock) := by
  unfold blenderBranch
  simp

lemma blenderBranch_notEnabled {ε : Type} (env : RunEnv ε)
    (emit_stage out_dir : String) (texture_backend : String)
    (blender_path : Option String) (outputs : ReconOutputs) (clock : ℕ) :
    blenderBranch env emit_stage out_dir false texture_backend blender_path
        outputs clock =
      (outputs, false, [], clock) := by
  unfold blenderBranch
  simp

lemma finalizeMesh_none (out_dir : String) (o : ReconOutputs)
    (h : o.mesh_path = none) :
    finalizeMesh out_dir o =
      ({ o with mesh_path := some (out_dir ++ "/model.glb") },
        [Strategy.untexturedExport]) := by
  unfold finalizeMesh
  rw [if_pos (by simp [h])]

lemma runModel_ok_mesh {ε : Type} (config : PipelineConfig) (env : RunEnv ε)
    (view_paths : List RGBAImage) (depth_paths : ℤ → Option DepthImage)
    (out_dir emit_stage : String) (v : ReconOutputs × List Strategy)
    (h : runModel config env view_paths depth_paths out_dir emit_stage = .ok v) :
    v.1.mesh_path.isSome := by
  unfold runModel at h
  repeat' split at h
  all_goals try dsimp only at h
  all_goals repeat' split at h
  all_goals
    first
    | exact absurd h (by simp)
    | exact runTexture_ok_mesh config env out_dir emit_stage _ _ _ _ _ v h

lemma run_xatlas_failure {ε : Type} (config : PipelineConfig) (env : RunEnv ε)
    (view_paths : List RGBAImage) (depth_paths : ℤ → Option DepthImage)
    (out_dir emit_stage : String)
    (hvalid : config.validViewIndices)
    (hemit : env.emit = none) (hfusion : env.fusionOk = true)
    (hte : config.texture_enabled = true)
    (htb : config.texture_backend = "auto")
    (hximp : env.xatlasImportOk = true)
    (hxbake : env.xatlasBakeOk = false)
    (hsome : ¬ ∀ i ∈ selectViews config view_paths.length, depth_paths i = none) :
    runModel config env view_paths depth_paths out_dir emit_stage =
      .ok ({ mesh_path := some (out_dir ++ "/model.glb"),
             texture_path := none,
             point_cloud_path :=
               if config.points_enabled then some (out_dir ++ "/points.ply")
               else none },
           [Strategy.pyxatlasBake, Strategy.untexturedExport]) := by
  obtain ⟨fr, hfr, hiff⟩ := buildFrames_ok (ε := ε) config view_paths depth_paths _
    (selectViews_bounds_valid config view_paths.length hvalid)
  have hne : fr ≠ [] := fun hfe => hsome (hiff.mp hfe)
  rw [runModel_emitNone_ok config env view_paths depth_paths out_dir emit_stage
    fr hemit hfusion hfr]
  rw [if_neg (by simp [hne])]
  have hBack : effBackend config = "auto" := by
    unfold effBackend
    rw [htb]
    decide
  have hab : ("auto" == "blender") = false := by decide
  have hTE : effTextureEnabled config env = true := by
    unfold effTextureEnabled
    rw [hBack, hte, hab]
    simp
  have hXA : effXatlas config env = true := by
    unfold effXatlas
    rw [hBack, hte, hximp]
    simp
  rw [hTE, hBack, hXA,
    runTexture_emitNone config env out_dir emit_stage true "auto" true
      env.blenderPath 0 hemit]
  by_cases hp : config.points_enabled <;>
    simp [hp, xatlasBranch, blenderBranch, finalizeMesh, hxbake]

lemma run_no_backends {ε : Type} (config : PipelineConfig) (env : RunEnv ε)
    (view_paths : List RGBAImage) (depth_paths : ℤ → Option DepthImage)
    (out_dir emit_stage : String)
    (hvalid : config.validViewIndices)
    (hemit : env.emit = none) (hfusion : env.fusionOk = true)
    (hximp : env.xatlasImportOk = false) (hbp : env.blenderPath = none)
    (hsome : ¬ ∀ i ∈ selectViews config view_paths.length, depth_paths i = none) :
    runModel config env view_paths depth_paths out_dir emit_stage =
      .ok ({ mesh_path := some (out_dir ++ "/model.glb"),
             texture_path := none,
             point_cloud_path :=
               if config.points_enabled then some (out_dir ++ "/points.ply")
               else none },
           [Strategy.untexturedExport]) := by
  obtain ⟨fr, hfr, hiff⟩ := buildFrames_ok (ε := ε) config view_paths depth_paths _
    (selectViews_bounds_valid config view_paths.length hvalid)
  have hne : fr ≠ [] := fun hfe => hsome (hiff.mp hfe)
  rw [runModel_emitNone_ok config env view_paths depth_paths out_dir emit_stage
    fr hemit hfusion hfr]
  rw [if_neg (by simp [hne])]
  have hXA : effXatlas config env = false := by
    unfold effXatlas
    rw [hximp]
    simp
  rw [hXA, hbp,
    runTexture_emitNone config env out_dir emit_stage
      (effTextureEnabled config env) (effBackend config) false none 0 hemit]
  by_cases hp : config.points_enabled <;>
    simp [hp, xatlasBranch, blenderBranch, finalizeMesh]

/-- C1: whenever `run` returns without raising, the returned outputs carry a
mesh path; and in the backend-free scenario — texturing enabled, the
xatlas import unavailable, no Blender executable, at least one selected view with a
depth map, no callback, geometry succeeding — `run` returns the untextured
mesh export (with no texture path) rather than failing. -/
theorem C1_run_mesh_guaranteed {ε : Type} :
    (∀ (config : PipelineConfig) (env : RunEnv ε) (view_paths : List RGBAImage)
        (depth_paths : ℤ → Option DepthImage) (out_dir emit_stage : String)
        (o : ReconOutputs) (tr : List Strategy),
      runModel config env view_paths depth_paths out_dir emit_stage = .ok (o, tr) →
      o.mesh_path.isSome) ∧
    (∀ (config : PipelineConfig) (env : RunEnv ε) (view_paths : List RGBAImage)
        (depth_paths : ℤ → Option DepthImage) (out_dir emit_stage : String),
      config.validViewIndices → config.texture_enabled = true →
      env.emit = none → env.fusionOk = true →
      env.xatlasImportOk = false → env.blenderPath = none →
      (¬ ∀ i ∈ selectViews config view_paths.length, depth_paths i = none) →
      runModel config env view_paths depth_paths out_dir emit_stage =
        .ok ({ mesh_path := some (out_dir ++ "/model.glb"),
               texture_path := none,
               point_cloud_path :=
                 if config.points_enabled then some (out_dir ++ "/points.ply")
                 else none },
             [Strategy.untexturedExport])) := by
  constructor
  · intro config env view_paths depth_paths out_dir emit_stage o tr h
    exact runModel_ok_mesh config env view_paths depth_paths out_dir emit_stage
      (o, tr) h
  · intro config env view_paths depth_paths out_dir emit_stage hvalid _hte hemit
      hfusion hximp hbp hsome
    exact run_no_backends config env view_paths depth_paths out_dir emit_stage
      hvalid hemit hfusion hximp hbp hsome

/-- A 1x1 opaque white RGBA test image. -/
def imgW : RGBAImage := [[(255, 255, 255, 255)]]

/-- A 1x1 fully transparent RGBA test image. -/
def imgA0 : RGBAImage := [[(0, 0, 0, 0)]]

/-- A 1x1 8-bit depth map. -/
def dimgW : DepthImage := { rows := [[0]], is16bit := false }

/-- A depth-path table defined only at index 0. -/
def dpW : ℤ → Option DepthImage := fun i => if i = 0 then some dimgW else none

/-- An environment with no texture backends, no callback, working fusion. -/
def envC1 : RunEnv Unit :=
  { xatlasImportOk := false, blenderPath := none, fusionOk := true,
    xatlasBakeOk := false, blenderBakeOk := false, now := fun _ => 0,
    emit := none }

/-- Witness for C1: the default configuration with one opaque view and no
texture backend available returns the untextured mesh. -/
theorem C1_witness :
    (({} : PipelineConfig).validViewIndices ∧
      ({} : PipelineConfig).texture_enabled = true ∧ envC1.emit = none ∧
      envC1.fusionOk = true ∧ envC1.xatlasImportOk = false ∧
      envC1.blenderPath = none ∧
      ¬ ∀ i ∈ selectViews {} [imgW].length, dpW i = none) ∧
    runModel ({} : PipelineConfig) envC1 [imgW] dpW "out" "rebuild" =
      .ok ({ mesh_path := some ("out" ++ "/model.glb"),
             texture_path := none,
             point_cloud_path :=
               if ({} : PipelineConfig).points_enabled
               then some ("out" ++ "/points.ply") else none },
           [Strategy.untexturedExport]) :=
  ⟨⟨trivial, rfl, rfl, rfl, rfl, rfl,
      fun hall => absurd (hall 0 (by decide)) (by simp [dpW, dimgW])⟩,
    (C1_run_mesh_guaranteed (ε := Unit)).2 {} envC1 [imgW] dpW "out" "rebuild"
      trivial rfl rfl rfl rfl rfl
      (fun hall => absurd (hall 0 (by decide)) (by simp [dpW, dimgW]))⟩

/-- C2 (amended): with backend `auto`, a resolvable Blender executable and
a failing in-process xatlas bake, `run` does NOT attempt the Blender
subprocess bake: the xatlas exception handler clears `texture_enabled`
(while setting the backend to "blender"), so the Blender branch guard is
false and `run` degrades directly to the untextured export. -/
theorem C2_xatlas_exception_skips_blender {ε : Type} (config : PipelineConfig)
    (env : RunEnv ε) (view_paths : List RGBAImage)
    (depth_paths : ℤ → Option DepthImage) (out_dir emit_stage : String)
    (hvalid : config.validViewIndices)
    (hemit : env.emit = none) (hfusion : env.fusionOk = true)
    (hte : config.texture_enabled = true)
    (htb : config.texture_backend = "auto")
    (hbp : env.blenderPath.isSome = true)
    (hximp : env.xatlasImportOk = true)
    (hxbake : env.xatlasBakeOk = false)
    (hsome : ¬ ∀ i ∈ selectViews config view_paths.length, depth_paths i = none) :
    ∃ o tr, runModel config env view_paths depth_paths out_dir emit_stage =
        .ok (o, tr) ∧
      Strategy.pyxatlasBake ∈ tr ∧ Strategy.untexturedExport ∈ tr ∧
      Strategy.blenderBake ∉ tr ∧ o.texture_path = none ∧
      o.mesh_path = some (out_dir ++ "/model.glb") :=
  ⟨{ mesh_path := some (out_dir ++ "/model.glb"),
     texture_path := none,
     point_cloud_path :=
       if config.points_enabled then some (out_dir ++ "/points.ply") else none },
   [Strategy.pyxatlasBake, Strategy.untexturedExport],
   run_xatlas_failure config env view_paths depth_paths out_dir emit_stage
     hvalid hemit hfusion hte htb hximp hxbake hsome,
   by simp, by simp, by decide, rfl, rfl⟩

/-- An environment with a failing xatlas bake but Blender resolvable. -/
def envC2 : RunEnv Unit :=
  { xatlasImportOk := true, blenderPath := some "/usr/bin/blender",
    fusionOk := true, xatlasBakeOk := false, blenderBakeOk := true,
    now := fun _ => 0, emit := none }

/-- C2 counterexample: at the default configuration (texturing on, backend
`auto`), with Blender resolvable and the xatlas bake raising, the returned
strategy trace records the untextured fallback but no Blender attempt. -/
theorem C2_counterexample :
    ({} : PipelineConfig).texture_enabled = true ∧
    ({} : PipelineConfig).texture_backend = "auto" ∧
    envC2.blenderPath.isSome = true ∧ envC2.xatlasBakeOk = false ∧
    ∃ o tr, runModel ({} : PipelineConfig) envC2 [imgW] dpW "out" "rebuild" =
        .ok (o, tr) ∧
      Strategy.blenderBake ∉ tr ∧ Strategy.untexturedExport ∈ tr :=
  ⟨rfl, rfl, rfl, rfl,
   { mesh_path := some ("out" ++ "/model.glb"),
     texture_path := none,
     point_cloud_path :=
       if ({} : PipelineConfig).points_enabled then some ("out" ++ "/points.ply")
       else none },
   [Strategy.pyxatlasBake, Strategy.untexturedExport],
   run_xatlas_failure {} envC2 [imgW] dpW "out" "rebuild"
     trivial rfl rfl rfl rfl rfl rfl
     (fun hall => absurd (hall 0 (by decide)) (by simp [dpW, dimgW])),
   by decide, by simp⟩

/-- Witness for C2 (amended) at the default configuration. -/
theorem C2_witness :
    (({} : PipelineConfig).validViewIndices ∧ envC2.emit = none ∧
      envC2.fusionOk = true ∧ ({} : PipelineConfig).texture_enabled = true ∧
      ({} : PipelineConfig).texture_backend = "auto" ∧
      envC2.blenderPath.isSome = true ∧ envC2.xatlasImportOk = true ∧
      envC2.xatlasBakeOk = false ∧
      ¬ ∀ i ∈ selectViews {} [imgW].length, dpW i = none) ∧
    (∃ o tr, runModel ({} : PipelineConfig) envC2 [imgW] dpW "out" "rebuild" =
        .ok (o, tr) ∧
      Strategy.pyxatlasBake ∈ tr ∧ Strategy.untexturedExport ∈ tr ∧
      Strategy.blenderBake ∉ tr ∧ o.texture_path = none ∧
      o.mesh_path = some ("out" ++ "/model.glb")) :=
  ⟨⟨trivial, rfl, rfl, rfl, rfl, rfl, rfl, rfl,
      fun hall => absurd (hall 0 (by decide)) (by simp [dpW, dimgW])⟩,
    C2_xatlas_exception_skips_blender {} envC2 [imgW] dpW "out" "rebuild"
      trivial rfl rfl rfl rfl rfl rfl rfl
      (fun hall => absurd (hall 0 (by decide)) (by simp [dpW, dimgW]))⟩

/-- C3 (amended): the report closure has no exception guard around the
callback invocation, so an exception raised by the callback at the very
first milestone propagates out of `run` and aborts the reconstruction. -/
theorem C3_report_exception_aborts {ε : Type} (config : PipelineConfig)
    (env : RunEnv ε) (view_paths : List RGBAImage)
    (depth_paths : ℤ → Option DepthImage) (out_dir emit_stage : String)
    (f : PipelineEvent → Except ε Unit) (e : ε)
    (hemit : env.emit = some f)
    (hf : f { kind := "log", stage := emit_stage, ts_ns := env.now 0,
              message := some "Rebuild started" } = .error e) :
    runModel config env view_paths depth_paths out_dir emit_stage =
      .error (.callback e) := by
  unfold runModel
  have h1 : reportE env.emit emit_stage env.now 0 0 (some "Rebuild started") =
      .error (RunError.callback e) := by
    unfold reportE reportR
    rw [hemit]
    dsimp only
    rw [hf]
  rw [h1]

/-- A callback that always raises. -/
def fFail : PipelineEvent → Except Unit Unit := fun _ => .error ()

/-- An environment whose progress callback always raises. -/
def envC3 : RunEnv Unit :=
  { xatlasImportOk := false, blenderPath := none, fusionOk := true,
    xatlasBakeOk := false, blenderBakeOk := false, now := fun _ => 0,
    emit := some fFail }

/-- C3 counterexample: a callback that raises at every milestone makes
`run` fail with that callback exception — the exception propagates into and
aborts the reconstruction, contradicting the claimed isolation. -/
theorem C3_counterexample :
    envC3.emit = some fFail ∧ (∀ ev, fFail ev = Except.error ()) ∧
    runModel ({} : PipelineConfig) envC3 [] (fun _ => none) "out" "rebuild" =
      .error (.callback ()) :=
  ⟨rfl, fun _ => rfl, rfl⟩

/-- Witness for C3 (amended) at the always-raising callback. -/
theorem C3_witness :
    envC3.emit = some fFail ∧
    fFail { kind := "log", stage := "rebuild", ts_ns := envC3.now 0,
            message := some "Rebuild started" } = .error () ∧
    runModel ({} : PipelineConfig) envC3 [imgW] dpW "out" "rebuild" =
      .error (.callback ()) :=
  ⟨rfl, rfl,
    C3_report_exception_aborts {} envC3 [imgW] dpW "out" "rebuild" fFail ()
      rfl rfl⟩

/-- C9 (amended): with a pydantic-valid configuration and no callback,
`run` aborts with the no-valid-views error if and only if every selected
view index has no depth path at all.  The abort is decided by depth-path
presence, not by the depth/alpha content: a frame whose depth is entirely
alpha-masked to zero still counts as a valid view (see the
counterexample). -/
theorem C9_abort_iff_no_depth_paths {ε : Type} (config : PipelineConfig)
    (env : RunEnv ε) (view_paths : List RGBAImage)
    (depth_paths : ℤ → Option DepthImage) (out_dir emit_stage : String)
    (hvalid : config.validViewIndices) (hemit : env.emit = none) :
    (runModel config env view_paths depth_paths out_dir emit_stage =
        .error .noValidViews ↔
      ∀ i ∈ selectViews config view_paths.length, depth_paths i = none) := by
  obtain ⟨fr, hfr, hiff⟩ := buildFrames_ok (ε := ε) config view_paths depth_paths _
    (selectViews_bounds_valid config view_paths.length hvalid)
  cases hfus : env.fusionOk with
  | true =>
      rw [runModel_emitNone_ok config env view_paths depth_paths out_dir
        emit_stage fr hemit hfus hfr]
      by_cases hfe : fr = []
      · rw [if_pos (by simp [hfe])]
        exact iff_of_true rfl (hiff.mp hfe)
      · rw [if_neg (by simp [hfe])]
        rw [runTexture_emitNone config env out_dir emit_stage
          (effTextureEnabled config env) (effBackend config)
          (effXatlas config env) env.blenderPath 0 hemit]
        exact iff_of_false (by simp) (fun hall => hfe (hiff.mpr hall))
  | false =>
      rw [runModel_emitNone_fusionFail config env view_paths depth_paths out_dir
        emit_stage fr hemit hfus hfr]
      by_cases hfe : fr = []
      · rw [if_pos (by simp [hfe])]
        exact iff_of_true rfl (hiff.mp hfe)
      · rw [if_neg (by simp [hfe])]
        exact iff_of_false (by simp) (fun hall => hfe (hiff.mpr hall))

/-- C9 counterexample: a single fully transparent view with a depth path
present yields a frame whose masked depth is entirely zero (an empty
depth/alpha-valid region), yet `run` does not abort with the no-valid-views
error: the abort tests only depth-path presence, not depth content. -/
theorem C9_counterexample :
    ∃ fr, buildFrames (ε := Unit) ({} : PipelineConfig) [imgA0] dpW
        (selectViews {} [imgA0].length) = .ok fr ∧
      fr ≠ [] ∧ (∀ f ∈ fr, hasValidDepth f.depth = false) ∧
      runModel ({} : PipelineConfig) envC1 [imgA0] dpW "out" "rebuild" ≠
        .error .noValidViews := by
  have hsel : selectViews ({} : PipelineConfig) ([imgA0].length) = [0] := by decide
  have hbf : buildFrames (ε := Unit) ({} : PipelineConfig) [imgA0] dpW
      (selectViews {} [imgA0].length) =
      .ok [{ index := 0, color := [[(0, 0, 0)]], depth := [[0]], az := 0, el := 10 }] := by
    rw [hsel]
    unfold buildFrames buildFramesGo
    norm_num [dpW, dimgW, pyListGet, defaultAngles, truthyList, loadColor,
      loadDepth, maskDepth, imgShape, imgA0, defaultAngles_length]
    rfl
  refine ⟨_, hbf, by simp, ?_, ?_⟩
  · intro f hf
    rw [List.mem_singleton] at hf
    rw [hf]
    norm_num [hasValidDepth]
  · rw [runModel_emitNone_ok {} envC1 [imgA0] dpW "out" "rebuild" _ rfl rfl hbf]
    rw [if_neg (by simp)]
    rw [runTexture_emitNone {} envC1 "out" "rebuild"
      (effTextureEnabled {} envC1) (effBackend {}) (effXatlas {} envC1)
      envC1.blenderPath 0 rfl]
    simp

/-- Witness for C9 (amended): one view whose depth path is missing makes
`run` abort with the no-valid-views error. -/
theorem C9_witness :
    (({} : PipelineConfig).validViewIndices ∧ envC1.emit = none) ∧
    (runModel ({} : PipelineConfig) envC1 [imgW]
        (fun _ => (none : Option DepthImage)) "out" "rebuild" =
        .error .noValidViews ↔
      ∀ i ∈ selectViews {} [imgW].length,
        (fun (_ : ℤ) => (none : Option DepthImage)) i = none) :=
  ⟨⟨trivial, rfl⟩,
    C9_abort_iff_no_depth_paths {} envC1 [imgW]
      (fun _ => (none : Option DepthImage)) "out" "rebuild" trivial rfl⟩

/-! ## Camera model (`LocalReconstructor._camera_pose` and `_look_at`,
lines 325-371), over the reals. -/

/-- A 3-vector of reals. -/
structure Vec3R where
  x : ℝ
  y : ℝ
  z : ℝ

/-- Componentwise subtraction. -/
def v3subR (a b : Vec3R) : Vec3R := ⟨a.x - b.x, a.y - b.y, a.z - b.z⟩

/-- `np.cross`. -/
def v3crossR (a b : Vec3R) : Vec3R :=
  ⟨a.y * b.z - a.z * b.y, a.z * b.x - a.x * b.z, a.x * b.y - a.y * b.x⟩

/-- Dot product. -/
def v3dotR (a b : Vec3R) : ℝ := a.x * b.x + a.y * b.y + a.z * b.z

/-- Scalar multiple. -/
def scaleR (c : ℝ) (v : Vec3R) : Vec3R := ⟨c * v.x, c * v.y, c * v.z⟩

/-- Componentwise negation. -/
def negR (v : Vec3R) : Vec3R := ⟨-v.x, -v.y, -v.z⟩

/-- `np.linalg.norm`. -/
noncomputable def norm3R (v : Vec3R) : ℝ := Real.sqrt (v.x ^ 2 + v.y ^ 2 + v.z ^ 2)

/-- The guarded normalisation `v / (np.linalg.norm(v) + 1e-8)` of
`_look_at`. -/
noncomputable def normalizeS (v : Vec3R) : Vec3R :=
  scaleR (norm3R v + 1 / 100000000)⁻¹ v

/-- The normalised forward direction of `_look_at` (lines 351-352). -/
noncomputable def lookAtForward (eye target : Vec3R) : Vec3R :=
  normalizeS (v3subR target eye)

/-- The normalised right direction (lines 355-356). -/
noncomputable def lookAtRight (eye target up : Vec3R) : Vec3R :=
  normalizeS (v3crossR (lookAtForward eye target) up)

/-- The recomputed up vector (lines 359-360). -/
noncomputable def lookAtUp (eye target up : Vec3R) : Vec3R :=
  normalizeS (v3crossR (lookAtForward eye target) (lookAtRight eye target up))

/-- `LocalReconstructor._look_at` (lines 340-371): the camera-to-world
matrix, with columns `right`, `-up_vec` (the deliberate Y flip), `forward`,
`eye` and last row `(0, 0, 0, 1)`. -/
noncomputable def lookAt (eye target up : Vec3R) : Matrix (Fin 4) (Fin 4) ℝ :=
  !![(lookAtRight eye target up).x, -(lookAtUp eye target up).x,
       (lookAtForward eye target).x, eye.x;
     (lookAtRight eye target up).y, -(lookAtUp eye target up).y,
       (lookAtForward eye target).y, eye.y;
     (lookAtRight eye target up).z, -(lookAtUp eye target up).z,
       (lookAtForward eye target).z, eye.z;
     0, 0, 0, 1]

/-- The eye position of `_camera_pose` (lines 326-336). -/
noncomputable def cameraEye (config : PipelineConfig) (az_deg el_deg : ℝ) : Vec3R :=
  let az := az_deg * (Real.pi / 180)
  let el := el_deg * (Real.pi / 180)
  let r : ℝ := ((config.camera_radius : ℚ) : ℝ)
  ⟨r * Real.cos el * Real.sin az, r * Real.sin el, r * Real.cos el * Real.cos az⟩

/-- `cam_to_world` of `_camera_pose` (line 337). -/
noncomputable def camToWorld (config : PipelineConfig) (az_deg el_deg : ℝ) :
    Matrix (Fin 4) (Fin 4) ℝ :=
  lookAt (cameraEye config az_deg el_deg) ⟨0, 0, 0⟩ ⟨0, 1, 0⟩

/-- `world_to_cam = np.linalg.inv(cam_to_world)` of `_build_frames`
(line 290). -/
noncomputable def worldToCam (config : PipelineConfig) (az_deg el_deg : ℝ) :
    Matrix (Fin 4) (Fin 4) ℝ :=
  (camToWorld config az_deg el_deg)⁻¹

/-- The 3x3 rotation block `M[:3, :3]`. -/
def rotBlock (M : Matrix (Fin 4) (Fin 4) ℝ) : Matrix (Fin 3) (Fin 3) ℝ :=
  Matrix.of fun i j => M i.castSucc j.castSucc

/-- The determinant of the rotation block (line 285). -/
noncomputable def rotDet (M : Matrix (Fin 4) (Fin 4) ℝ) : ℝ := (rotBlock M).det

/-- Scalar triple product: the determinant of the matrix with columns
`a`, `b`, `c`. -/
def det3 (a b c : Vec3R) : ℝ := v3dotR a (v3crossR b c)

lemma rotDet_lookAt (eye target up : Vec3R) :
    rotDet (lookAt eye target up) =
      det3 (lookAtRight eye target up) (negR (lookAtUp eye target up))
        (lookAtForward eye target) := by
  unfold rotDet lookAt det3 v3dotR v3crossR negR
  rw [Matrix.det_fin_three]
  simp [rotBlock, show Fin.castSucc (2 : Fin 3) = (2 : Fin 4) from rfl,
    Matrix.cons_val_succ]
  ring

lemma det3_right_negUp_forward (f a : Vec3R) (s : ℝ) :
    det3 a (negR (scaleR s (v3crossR f a))) f =
      -(s * (v3dotR f f * v3dotR a a - v3dotR a f ^ 2)) := by
  unfold det3 v3dotR v3crossR negR scaleR
  ring

lemma cauchy3 (f a : Vec3R) :
    0 ≤ v3dotR f f * v3dotR a a - v3dotR a f ^ 2 := by
  have h : v3dotR f f * v3dotR a a - v3dotR a f ^ 2 =
      (f.y * a.z - f.z * a.y) ^ 2 + (f.z * a.x - f.x * a.z) ^ 2 +
        (f.x * a.y - f.y * a.x) ^ 2 := by
    unfold v3dotR
    ring
  rw [h]
  positivity

lemma inv_normEps_pos (v : Vec3R) : 0 < (norm3R v + 1 / 100000000)⁻¹ := by
  have h : 0 ≤ norm3R v := Real.sqrt_nonneg _
  positivity

lemma rotDet_lookAt_nonpos (eye target up : Vec3R) :
    rotDet (lookAt eye target up) ≤ 0 := by
  rw [rotDet_lookAt]
  rw [show lookAtUp eye target up =
      scaleR (norm3R (v3crossR (lookAtForward eye target)
          (lookAtRight eye target up)) + 1 / 100000000)⁻¹
        (v3crossR (lookAtForward eye target) (lookAtRight eye target up))
    from rfl]
  rw [det3_right_negUp_forward]
  have h1 := (inv_normEps_pos (v3crossR (lookAtForward eye target)
    (lookAtRight eye target up))).le
  have h2 := cauchy3 (lookAtForward eye target) (lookAtRight eye target up)
  have := mul_nonneg h1 h2
  linarith

lemma rotDet_camToWorld_nonpos (config : PipelineConfig) (az_deg el_deg : ℝ) :
    rotDet (camToWorld config az_deg el_deg) ≤ 0 :=
  rotDet_lookAt_nonpos _ _ _

lemma det_eq_rotDet (M : Matrix (Fin 4) (Fin 4) ℝ) (h0 : M 3 0 = 0)
    (h1 : M 3 1 = 0) (h2 : M 3 2 = 0) (h3 : M 3 3 = 1) :
    M.det = rotDet M := by
  rw [Matrix.det_succ_row M 3]
  simp [Fin.sum_univ_four, h0, h1, h2, h3]
  rw [show ((3 : Fin 4)).succAbove = Fin.castSucc from Fin.succAbove_last]
  rfl

lemma lookAt_det (eye target up : Vec3R) :
    (lookAt eye target up).det = rotDet (lookAt eye target up) :=
  det_eq_rotDet _ rfl rfl rfl rfl

/-- C4 (corrected): whenever the camera-to-world matrix of a pose is
invertible, the stored world-to-camera matrix is its two-sided inverse (the
claim's first half); but the determinant of the 3x3 rotation block is never
`+1` within `1e-6`: the `-up_vec` column makes it nonpositive at every
azimuth, elevation and configured radius. -/
theorem C4_pose_inverse_and_det (config : PipelineConfig) (az_deg el_deg : ℝ)
    (h : IsUnit (camToWorld config az_deg el_deg).det) :
    (worldToCam config az_deg el_deg * camToWorld config az_deg el_deg = 1 ∧
      camToWorld config az_deg el_deg * worldToCam config az_deg el_deg = 1) ∧
    rotDet (camToWorld config az_deg el_deg) ≤ 0 ∧
    ¬ |rotDet (camToWorld config az_deg el_deg) - 1| ≤ 1 / 1000000 := by
  refine ⟨⟨Matrix.nonsing_inv_mul _ h, Matrix.mul_nonsing_inv _ h⟩,
    rotDet_camToWorld_nonpos config az_deg el_deg, fun habs => ?_⟩
  have hd := rotDet_camToWorld_nonpos config az_deg el_deg
  have h1 : (1 : ℝ) - rotDet (camToWorld config az_deg el_deg) ≤
      |rotDet (camToWorld config az_deg el_deg) - 1| := by
    rw [abs_sub_comm]
    exact le_abs_self _
  linarith

/-- C4 counterexample: at the default configuration with azimuth 0 and
elevation 0 the rotation-block determinant is nonpositive, hence not within
`1e-6` of `+1` as claimed. -/
theorem C4_counterexample :
    rotDet (camToWorld {} 0 0) ≤ 0 ∧
    ¬ |rotDet (camToWorld {} 0 0) - 1| ≤ 1 / 1000000 := by
  have hd := rotDet_camToWorld_nonpos {} 0 0
  refine ⟨hd, fun habs => ?_⟩
  have h1 : (1 : ℝ) - rotDet (camToWorld {} 0 0) ≤
      |rotDet (camToWorld {} 0 0) - 1| := by
    rw [abs_sub_comm]
    exact le_abs_self _
  linarith

noncomputable def kfC4 : ℝ := ((6 / 5 : ℝ) + 1 / 100000000)⁻¹

noncomputable def krC4 : ℝ := (6 / 5 * kfC4 + 1 / 100000000)⁻¹

lemma kfC4_pos : 0 < kfC4 := by
  unfold kfC4
  norm_num

lemma krC4_pos : 0 < krC4 := by
  unfold krC4
  have h := kfC4_pos
  positivity

lemma cameraEye_default : cameraEye {} 0 0 = ⟨0, 0, 6 / 5⟩ := by
  unfold cameraEye
  dsimp only
  simp only [zero_mul, Real.cos_zero, Real.sin_zero, Vec3R.mk.injEq]
  norm_num

lemma lookAtForward_default :
    lookAtForward ⟨0, 0, 6 / 5⟩ ⟨0, 0, 0⟩ = ⟨0, 0, -(6 / 5 * kfC4)⟩ := by
  unfold lookAtForward normalizeS v3subR norm3R scaleR kfC4
  dsimp only
  have hsq : Real.sqrt ((0 - 0 : ℝ) ^ 2 + (0 - 0 : ℝ) ^ 2 +
      ((0 : ℝ) - 6 / 5) ^ 2) = 6 / 5 := by
    rw [show ((0 - 0 : ℝ) ^ 2 + (0 - 0 : ℝ) ^ 2 + ((0 : ℝ) - 6 / 5) ^ 2) =
      (6 / 5 : ℝ) ^ 2 by norm_num]
    exact Real.sqrt_sq (by norm_num)
  rw [hsq]
  simp only [Vec3R.mk.injEq]
  norm_num

lemma lookAtRight_default :
    lookAtRight ⟨0, 0, 6 / 5⟩ ⟨0, 0, 0⟩ ⟨0, 1, 0⟩ =
      ⟨6 / 5 * kfC4 * krC4, 0, 0⟩ := by
  unfold lookAtRight
  rw [lookAtForward_default]
  unfold normalizeS v3crossR norm3R scaleR krC4
  dsimp only
  have hkf := kfC4_pos
  have hsq : Real.sqrt ((0 * 0 - -(6 / 5 * kfC4) * 1) ^ 2 +
      (-(6 / 5 * kfC4) * 0 - 0 * 0) ^ 2 + (0 * 1 - 0 * 0) ^ 2) = 6 / 5 * kfC4 := by
    rw [show ((0 * 0 - -(6 / 5 * kfC4) * 1) ^ 2 + (-(6 / 5 * kfC4) * 0 - 0 * 0) ^ 2 +
        (0 * 1 - 0 * 0) ^ 2) = (6 / 5 * kfC4) ^ 2 by ring]
    exact Real.sqrt_sq (by positivity)
  rw [hsq]
  simp only [Vec3R.mk.injEq]
  norm_num
  ring

lemma rotDet_default_neg : rotDet (camToWorld {} 0 0) < 0 := by
  unfold camToWorld
  rw [cameraEye_default, rotDet_lookAt]
  rw [show lookAtUp ⟨0, 0, 6 / 5⟩ ⟨0, 0, 0⟩ ⟨0, 1, 0⟩ =
      scaleR (norm3R (v3crossR (lookAtForward ⟨0, 0, 6 / 5⟩ ⟨0, 0, 0⟩)
          (lookAtRight ⟨0, 0, 6 / 5⟩ ⟨0, 0, 0⟩ ⟨0, 1, 0⟩)) + 1 / 100000000)⁻¹
        (v3crossR (lookAtForward ⟨0, 0, 6 / 5⟩ ⟨0, 0, 0⟩)
          (lookAtRight ⟨0, 0, 6 / 5⟩ ⟨0, 0, 0⟩ ⟨0, 1, 0⟩))
    from rfl]
  rw [det3_right_negUp_forward]
  have hs := inv_normEps_pos (v3crossR (lookAtForward ⟨0, 0, 6 / 5⟩ ⟨0, 0, 0⟩)
    (lookAtRight ⟨0, 0, 6 / 5⟩ ⟨0, 0, 0⟩ ⟨0, 1, 0⟩))
  have hD : 0 < v3dotR (lookAtForward ⟨0, 0, 6 / 5⟩ ⟨0, 0, 0⟩)
        (lookAtForward ⟨0, 0, 6 / 5⟩ ⟨0, 0, 0⟩) *
      v3dotR (lookAtRight ⟨0, 0, 6 / 5⟩ ⟨0, 0, 0⟩ ⟨0, 1, 0⟩)
        (lookAtRight ⟨0, 0, 6 / 5⟩ ⟨0, 0, 0⟩ ⟨0, 1, 0⟩) -
      v3dotR (lookAtRight ⟨0, 0, 6 / 5⟩ ⟨0, 0, 0⟩ ⟨0, 1, 0⟩)
        (lookAtForward ⟨0, 0, 6 / 5⟩ ⟨0, 0, 0⟩) ^ 2 := by
    rw [lookAtForward_default, lookAtRight_default]
    unfold v3dotR
    dsimp only
    have hkf := kfC4_pos
    have hkr := krC4_pos
    rw [show ((0 * 0 + 0 * 0 + -(6 / 5 * kfC4) * -(6 / 5 * kfC4)) *
        (6 / 5 * kfC4 * krC4 * (6 / 5 * kfC4 * krC4) + 0 * 0 + 0 * 0) -
        (6 / 5 * kfC4 * krC4 * 0 + 0 * 0 + 0 * -(6 / 5 * kfC4)) ^ 2) =
      (6 / 5 * kfC4) ^ 2 * (6 / 5 * kfC4 * krC4) ^ 2 by ring]
    positivity
  have hmul := mul_pos hs hD
  linarith

lemma camToWorld_default_isUnit : IsUnit (camToWorld {} 0 0).det := by
  have h := rotDet_default_neg
  unfold camToWorld at h ⊢
  rw [lookAt_det]
  exact isUnit_iff_ne_zero.mpr (ne_of_lt h)

/-- Witness for C4 at the default configuration, azimuth 0, elevation 0:
the pose matrix is invertible, the stored inverse is two-sided, and the
rotation determinant is nonpositive (so not `+1` within tolerance). -/
theorem C4_witness :
    IsUnit (camToWorld {} 0 0).det ∧
    ((worldToCam {} 0 0 * camToWorld {} 0 0 = 1 ∧
        camToWorld {} 0 0 * worldToCam {} 0 0 = 1) ∧
      rotDet (camToWorld {} 0 0) ≤ 0 ∧
      ¬ |rotDet (camToWorld {} 0 0) - 1| ≤ 1 / 1000000) :=
  ⟨camToWorld_default_isUnit,
    C4_pose_inverse_and_det {} 0 0 camToWorld_default_isUnit⟩

end LocalRecon
